import Mathlib

/-!
Shallow embedding of the gitlab2gitea migration engine (`main.go` of
github.com/cornelk/gitlab2gitea).  The engine migrates milestones, labels and
open issues from a GitLab project (the source) to a Gitea repository (the
destination).  Remote services are modelled as pure data: the GitLab side as
page-indexed fetch functions, the Gitea side as a `GiteaState` record whose
list endpoints return page slices, and all mutations as an explicit `Call`
trace.  Every definition below is translated from the Go source; doc comments
cite the Go function it embeds.
-/

/-- Projection of `gitlab.Milestone` — the fields the migrator reads
(`Title`, `Description`, `DueDate`). -/
structure GitlabMilestone where
  title : String
  description : String
  dueDate : Option Nat
deriving DecidableEq

/-- Projection of `gitlab.Label` — the fields the migrator reads
(`Name`, `Description`, `Color`). -/
structure GitlabLabel where
  name : String
  description : String
  color : String
deriving DecidableEq

/-- Projection of `gitlab.Issue` — the fields `migrateIssue` reads:
`Title`, `Description`, `DueDate`, `Milestone` (a nullable reference, of which
only `.Title` is used) and `Labels` (a list of label names). -/
structure GitlabIssue where
  title : String
  description : String
  dueDate : Option Nat
  milestone : Option String
  labels : List String
deriving DecidableEq

/-- Projection of `gitea.Milestone` — the fields the migrator reads
(`ID`, `Title`) plus the state, which the destination list endpoint
filters on. -/
structure GiteaMilestone where
  id : Int
  title : String
  state : String
deriving DecidableEq

/-- Projection of `gitea.Label` — the fields the migrator reads
(`ID`, `Name`). -/
structure GiteaLabel where
  id : Int
  name : String
deriving DecidableEq

/-- Projection of `gitea.Issue` — the fields the migrator reads
(`Index`, `Title`) plus the state, which the destination list endpoint
filters on. -/
structure GiteaIssue where
  index : Int
  title : String
  state : String
deriving DecidableEq

/-- The destination-side mutation calls the migrator can issue
(`CreateMilestone`, `CreateLabel`, `CreateIssue`, `EditIssue`,
`ReplaceIssueLabels`), with the payload fields the Go code fills in. -/
inductive Call where
  | createMilestone (title description : String) (deadline : Option Nat)
  | createLabel (name description color : String)
  | createIssue (title body : String) (deadline : Option Nat)
      (milestone : Int) (labels : List Int)
  | editIssue (index : Int) (title body : String) (milestone : Int)
      (deadline : Option Nat)
  | replaceIssueLabels (index : Int) (labels : List Int)
deriving DecidableEq

/-- `true` exactly on the three creation calls. -/
def Call.isCreate : Call → Bool
  | .createMilestone .. => true
  | .createLabel .. => true
  | .createIssue .. => true
  | _ => false

/-- The warnings `migrateIssue` logs via `logger.Error` for unresolved
references ("Unknown milestone" / "Unknown label"). -/
inductive Warning where
  | unknownMilestone (title : String)
  | unknownLabel (name : String)
deriving DecidableEq

/-- `gitea.CreateIssueOption` as filled by `migrateIssue`: `Milestone` is an
int64 left at its zero value `0` when no milestone is resolved, `Labels` a
list of label ids left empty when none resolve. -/
structure CreateIssueOption where
  title : String
  body : String
  deadline : Option Nat
  milestone : Int := 0
  labels : List Int := []
deriving DecidableEq

/-- The destination (Gitea) repository contents. -/
structure GiteaState where
  milestones : List GiteaMilestone
  labels : List GiteaLabel
  issues : List GiteaIssue
deriving DecidableEq

/-- The source (GitLab) project contents, as the flat item sequences the
paged listings stream (milestones already filtered to `state=active`, issues
to `state=opened` by the source-side query). -/
structure GitlabSource where
  milestones : List GitlabMilestone
  labels : List GitlabLabel
  issues : List GitlabIssue
deriving DecidableEq

/-! ### Go maps keyed by string

Go's `map[string]*T` with `m[k] = v` insertion and `m[k]` lookup is modelled
as an association list where inserts cons at the front, so a lookup from the
front sees the most recent insertion (last-wins, as in Go). -/

/-- Association-list model of one Go `m[k] = v` map assignment. -/
def mapInsert {α : Type} (m : List (String × α)) (k : String) (v : α) :
    List (String × α) :=
  (k, v) :: m

/-- Association-list model of Go `m[k]` map lookup (exact, case-sensitive
string equality). -/
def mapLookup {α : Type} (m : List (String × α)) (k : String) : Option α :=
  (m.find? (fun p => p.1 == k)).map (fun p => p.2)

/-- Building a Go map from a listing: `for _, x := range l { m[key x] = x }`. -/
def buildTable {α : Type} (l : List α) (key : α → String) :
    List (String × α) :=
  l.foldl (fun m x => mapInsert m (key x) x) []

/-! ### Destination (Gitea) list endpoints

The Gitea API serves listings page by page: one HTTP request returns one page
of at most the server page size.  `pageSlice` models the page a single request
returns; `state = "all"` disables the state filter, any other value keeps only
entities in that state. -/

/-- The slice of `l` that page `page` (1-based) of size `perPage` holds. -/
def pageSlice {α : Type} (l : List α) (page perPage : Nat) : List α :=
  (l.drop ((page - 1) * perPage)).take perPage

/-- One `ListRepoMilestones` request: state filter, then one page. -/
def listRepoMilestones (s : GiteaState) (state : String) (page perPage : Nat) :
    List GiteaMilestone :=
  pageSlice
    (if state = "all" then s.milestones
     else s.milestones.filter (fun m => m.state == state)) page perPage

/-- One `ListRepoLabels` request: one page (labels have no state filter). -/
def listRepoLabels (s : GiteaState) (page perPage : Nat) : List GiteaLabel :=
  pageSlice s.labels page perPage

/-- One `ListRepoIssues` request: state filter, then one page. -/
def listRepoIssues (s : GiteaState) (state : String) (page perPage : Nat) :
    List GiteaIssue :=
  pageSlice
    (if state = "all" then s.issues
     else s.issues.filter (fun i => i.state == state)) page perPage

/-- Embeds Go `giteaMilestones`: a single `ListRepoMilestones` call with
`State: "all"` and no page options (the client defaults to page 1 of the
server page size `perPage`), keyed by title.  Note that the Go function does
not loop over pages. -/
def giteaMilestones (s : GiteaState) (perPage : Nat) :
    List (String × GiteaMilestone) :=
  buildTable (listRepoMilestones s "all" 1 perPage) (fun m => m.title)

/-- Embeds Go `giteaLabels`: a single `ListRepoLabels` call with default
options (page 1 of the server page size), keyed by name.  Like
`giteaMilestones` it does not loop over pages. -/
def giteaLabels (s : GiteaState) (perPage : Nat) :
    List (String × GiteaLabel) :=
  buildTable (listRepoLabels s 1 perPage) (fun l => l.name)

/-- The paging loop of Go `giteaIssues`: `for page := 1; ; page++` requesting
`State: "all"`, inserting every returned issue into the accumulated map, and
returning it on the first empty page.  `fuel` bounds the recursion; `none`
means the fuel ran out before an empty page was seen. -/
def giteaIssuesLoop (s : GiteaState) (perPage : Nat)
    (issues : List (String × GiteaIssue)) (page : Nat) :
    Nat → Option (List (String × GiteaIssue))
  | 0 => none
  | fuel + 1 =>
    let pageItems := listRepoIssues s "all" page perPage
    if pageItems = [] then some issues
    else
      giteaIssuesLoop s perPage
        (pageItems.foldl (fun m i => mapInsert m i.title i) issues)
        (page + 1) fuel

/-- Embeds Go `giteaIssues`: drains all pages starting at page 1 into a map
keyed by title. -/
def giteaIssues (s : GiteaState) (perPage : Nat) (fuel : Nat) :
    Option (List (String × GiteaIssue)) :=
  giteaIssuesLoop s perPage [] 1 fuel

/-! ### Per-item engine steps -/

/-- The body of the milestone loop in Go `migrateMilestones`: skip when the
title is in the pre-fetched destination table, otherwise one
`CreateMilestone` call with `{Title, Description, Deadline}`. -/
def milestoneCalls (existing : List (String × GiteaMilestone))
    (milestone : GitlabMilestone) : List Call :=
  match mapLookup existing milestone.title with
  | some _ => []
  | none => [Call.createMilestone milestone.title milestone.description
      milestone.dueDate]

/-- The body of the label loop in Go `migrateLabels`: skip when the name is
in the pre-fetched destination table, otherwise one `CreateLabel` call with
`{Name, Description, Color}`. -/
def labelCalls (existing : List (String × GiteaLabel))
    (label : GitlabLabel) : List Call :=
  match mapLookup existing label.name with
  | some _ => []
  | none => [Call.createLabel label.name label.description label.color]

/-- The reference-resolution part of Go `migrateIssue` (its first half):
build the `CreateIssueOption` from the issue, attach the destination
milestone id when the issue's milestone title resolves against the milestone
table (logging "Unknown milestone" otherwise), and append the destination id
of each label name that resolves against the label table (logging
"Unknown label" otherwise). -/
def resolveIssue (issue : GitlabIssue)
    (giteaMilestones : List (String × GiteaMilestone))
    (giteaLabels : List (String × GiteaLabel)) :
    CreateIssueOption × List Warning :=
  let o : CreateIssueOption :=
    { title := issue.title, body := issue.description,
      deadline := issue.dueDate }
  let start : CreateIssueOption × List Warning :=
    match issue.milestone with
    | none => (o, [])
    | some title =>
      match mapLookup giteaMilestones title with
      | some milestone => ({ o with milestone := milestone.id }, [])
      | none => (o, [Warning.unknownMilestone title])
  issue.labels.foldl
    (fun acc l =>
      match mapLookup giteaLabels l with
      | some label => ({ acc.1 with labels := acc.1.labels ++ [label.id] },
          acc.2)
      | none => (acc.1, acc.2 ++ [Warning.unknownLabel l]))
    start

/-- Embeds Go `migrateIssue`: resolve references, then either one
`CreateIssue` call when the title is absent from the pre-fetched destination
issue table, or one `EditIssue` followed by one `ReplaceIssueLabels` (both
addressed by the existing destination issue's index) when it is present. -/
def migrateIssue (issue : GitlabIssue)
    (giteaMilestones : List (String × GiteaMilestone))
    (giteaLabels : List (String × GiteaLabel))
    (giteaIssues : List (String × GiteaIssue)) : List Call × List Warning :=
  let r := resolveIssue issue giteaMilestones giteaLabels
  let o := r.1
  match mapLookup giteaIssues issue.title with
  | none =>
    ([Call.createIssue o.title o.body o.deadline o.milestone o.labels], r.2)
  | some existing =>
    ([Call.editIssue existing.index o.title o.body o.milestone o.deadline,
      Call.replaceIssueLabels existing.index o.labels], r.2)

/-! ### Source (GitLab) paging

All three phase loops in Go share the same shape:
`for page := 1; ; page++` with `ListOptions{Page: page, PerPage: 100}`,
terminating exactly on an empty page and processing every item of each
non-empty page in returned order.  `sourcePagedLoop` embeds that loop,
recording each `(page, perPage)` request and the concatenated items.  `fuel`
bounds the recursion; `none` means no empty page was reached in `fuel`
requests. -/

def sourcePagedLoop {α : Type} (fetch : Nat → Nat → List α) (page : Nat) :
    Nat → Option (List (Nat × Nat) × List α)
  | 0 => none
  | fuel + 1 =>
    let items := fetch page 100
    if items.isEmpty then some ([(page, 100)], [])
    else
      match sourcePagedLoop fetch (page + 1) fuel with
      | none => none
      | some (reqs, rest) => some ((page, 100) :: reqs, items ++ rest)

/-- Embeds Go `migrateMilestones`: fetch the destination milestone table
once, then stream source milestones (the source query carries
`State: "active"`, folded into `fetch`) and emit the per-item calls. -/
def migrateMilestones (s : GiteaState) (perPage : Nat)
    (fetch : Nat → Nat → List GitlabMilestone) (fuel : Nat) :
    Option (List (Nat × Nat) × List Call) :=
  let existing := giteaMilestones s perPage
  match sourcePagedLoop fetch 1 fuel with
  | none => none
  | some (reqs, items) =>
    some (reqs, (items.map (milestoneCalls existing)).flatten)

/-- Embeds Go `migrateLabels`: fetch the destination label table once, then
stream source labels and emit the per-item calls. -/
def migrateLabels (s : GiteaState) (perPage : Nat)
    (fetch : Nat → Nat → List GitlabLabel) (fuel : Nat) :
    Option (List (Nat × Nat) × List Call) :=
  let existing := giteaLabels s perPage
  match sourcePagedLoop fetch 1 fuel with
  | none => none
  | some (reqs, items) =>
    some (reqs, (items.map (labelCalls existing)).flatten)

/-- Embeds Go `migrateIssues`: fetch the destination issue, milestone and
label tables once, then stream source open issues (the source query carries
`State: "opened"`, folded into `fetch`) and run `migrateIssue` on each. -/
def migrateIssues (s : GiteaState) (perPage : Nat)
    (fetch : Nat → Nat → List GitlabIssue) (fuel : Nat) :
    Option (List (Nat × Nat) × List Call × List Warning) :=
  match giteaIssues s perPage fuel with
  | none => none
  | some issueTable =>
    let msTable := giteaMilestones s perPage
    let lbTable := giteaLabels s perPage
    match sourcePagedLoop fetch 1 fuel with
    | none => none
    | some (reqs, items) =>
      let results := items.map (fun i => migrateIssue i msTable lbTable
        issueTable)
      some (reqs, (results.map (fun r => r.1)).flatten,
        (results.map (fun r => r.2)).flatten)

/-! ### Effect of the mutation calls on the destination

`applyCall` gives the destination-side semantics of each mutation: creations
append a fresh entity (Gitea assigns ids; a fresh issue index is one more
than the largest index in use), `EditIssue` rewrites the fields of the issue
with the addressed index (of which this model keeps the title), and
`ReplaceIssueLabels` changes no field this model keeps. -/

/-- The largest issue index in use (0 when none), so that `maxIssueIndex + 1`
is fresh. -/
def maxIssueIndex (s : GiteaState) : Int :=
  s.issues.foldl (fun a i => max a i.index) 0

/-- Destination-side effect of one mutation call. -/
def applyCall (s : GiteaState) (c : Call) : GiteaState :=
  match c with
  | .createMilestone t _ _ =>
    { s with milestones := s.milestones ++
        [{ id := Int.ofNat s.milestones.length, title := t, state := "open" }] }
  | .createLabel n _ _ =>
    { s with labels := s.labels ++
        [{ id := Int.ofNat s.labels.length, name := n }] }
  | .createIssue t _ _ _ _ =>
    { s with issues := s.issues ++
        [{ index := maxIssueIndex s + 1, title := t, state := "open" }] }
  | .editIssue idx t _ _ _ =>
    { s with issues := s.issues.map fun i =>
        if i.index = idx then { i with title := t } else i }
  | .replaceIssueLabels _ _ => s

/-- Destination-side effect of a call sequence, in order. -/
def applyCalls (s : GiteaState) (calls : List Call) : GiteaState :=
  calls.foldl applyCall s

/-! ### The three-phase run as a destination-state transformer

A phase's behaviour depends on the destination only through the tables it
fetches at phase start (the Go code never re-fetches mid-phase), so a phase
is: compute the calls from the phase-start state, then apply them.  The
issue table is the fully drained `giteaIssues` map, which equals
`buildTable s.issues` (proved below); the milestone and label tables are the
single-page `giteaMilestones`/`giteaLabels` maps. -/

/-- Calls of the milestone phase of one run, from phase-start state `s`. -/
def milestonePhaseCalls (s : GiteaState) (perPage : Nat)
    (src : List GitlabMilestone) : List Call :=
  (src.map (milestoneCalls (giteaMilestones s perPage))).flatten

/-- Calls of the label phase of one run, from phase-start state `s`. -/
def labelPhaseCalls (s : GiteaState) (perPage : Nat)
    (src : List GitlabLabel) : List Call :=
  (src.map (labelCalls (giteaLabels s perPage))).flatten

/-- Calls of the issue phase of one run, from phase-start state `s`. -/
def issuePhaseCalls (s : GiteaState) (perPage : Nat)
    (src : List GitlabIssue) : List Call :=
  (src.map (fun i =>
    (migrateIssue i (giteaMilestones s perPage) (giteaLabels s perPage)
      (buildTable s.issues (fun x => x.title))).1)).flatten

/-- One full three-phase run (Go `migrateProject` in the error-free case):
milestones, then labels, then issues, each phase reading its tables from the
destination state the previous phases left behind.  Returns the final
destination state and the full mutation-call trace. -/
def runMigration (src : GitlabSource) (perPage : Nat) (s : GiteaState) :
    GiteaState × List Call :=
  let msCalls := milestonePhaseCalls s perPage src.milestones
  let s1 := applyCalls s msCalls
  let lbCalls := labelPhaseCalls s1 perPage src.labels
  let s2 := applyCalls s1 lbCalls
  let isCalls := issuePhaseCalls s2 perPage src.issues
  let s3 := applyCalls s2 isCalls
  (s3, msCalls ++ lbCalls ++ isCalls)

/-! ### Orchestration and error propagation

Go `migrateProject` runs the three phases in order and returns on the first
error, wrapping it with the phase name (`fmt.Errorf("migrating …: %w", err)`).
Each phase's outcome is abstracted as `Except String Unit` (errors come from
the remote transport); the model also records which phases were entered. -/

/-- Embeds Go `migrateProject`, given the outcome each phase would produce:
returns the list of phases entered, in order, and the run's result. -/
def migrateProject (ms lb is : Except String Unit) :
    List String × Except String Unit :=
  match ms with
  | .error e => (["milestones"], .error ("migrating milestones: " ++ e))
  | .ok _ =>
    match lb with
    | .error e =>
      (["milestones", "labels"], .error ("migrating labels: " ++ e))
    | .ok _ =>
      match is with
      | .error e =>
        (["milestones", "labels", "issues"],
         .error ("migrating issues: " ++ e))
      | .ok _ => (["milestones", "labels", "issues"], .ok ())

/-! ### Lemmas about the map model -/

theorem mapLookup_mapInsert {α : Type} (m : List (String × α)) (k k' : String)
    (v : α) :
    mapLookup (mapInsert m k v) k' =
      if k = k' then some v else mapLookup m k' := by
  by_cases h : k = k'
  · subst h
    simp [mapLookup, mapInsert]
  · rw [if_neg h]
    unfold mapLookup mapInsert
    rw [List.find?_cons_of_neg]
    simp [h]

/-- Soundness of a table lookup: a hit returns an entity of the listing whose
key is the looked-up string. -/
theorem mapLookup_buildTable_sound {α : Type} (l : List α) (key : α → String)
    (k : String) (x : α) (h : mapLookup (buildTable l key) k = some x) :
    x ∈ l ∧ key x = k := by
  suffices H : ∀ (init : List (String × α)),
      mapLookup (l.foldl (fun m y => mapInsert m (key y) y) init) k = some x →
      (x ∈ l ∧ key x = k) ∨ mapLookup init k = some x by
    rcases H [] h with h' | h'
    · exact h'
    · simp [mapLookup] at h'
  clear h
  induction l with
  | nil => intro init h; exact Or.inr h
  | cons y ys ih =>
    intro init h
    simp only [List.foldl_cons] at h
    rcases ih _ h with h' | h'
    · exact Or.inl ⟨List.mem_cons_of_mem _ h'.1, h'.2⟩
    · rw [mapLookup_mapInsert] at h'
      by_cases hk : key y = k
      · rw [if_pos hk] at h'
        injection h' with h''
        subst h''
        exact Or.inl ⟨List.mem_cons_self _ _, hk⟩
      · rw [if_neg hk] at h'
        exact Or.inr h'

/-- Completeness of a table lookup: every key of the listing yields a hit. -/
theorem mapLookup_buildTable_isSome {α : Type} (l : List α) (key : α → String)
    (k : String) (h : k ∈ l.map key) :
    (mapLookup (buildTable l key) k).isSome := by
  suffices H : ∀ (init : List (String × α)),
      (mapLookup init k).isSome ∨ k ∈ l.map key →
      (mapLookup (l.foldl (fun m y => mapInsert m (key y) y) init) k).isSome by
    exact H [] (Or.inr h)
  clear h
  induction l with
  | nil =>
    intro init h
    rcases h with h | h
    · exact h
    · simp at h
  | cons y ys ih =>
    intro init h
    simp only [List.foldl_cons]
    apply ih
    rcases h with h | h
    · left
      rw [mapLookup_mapInsert]
      by_cases hk : key y = k
      · rw [if_pos hk]; rfl
      · rw [if_neg hk]; exact h
    · simp only [List.map_cons, List.mem_cons] at h
      rcases h with h | h
      · left
        rw [mapLookup_mapInsert, if_pos h.symm]
        rfl
      · exact Or.inr h

/-! ### Lemmas about reference resolution -/

/-- The label-resolution fold of `resolveIssue`, characterised: it appends
the ids of the resolvable labels to the option's label list, appends one
`unknownLabel` warning per unresolvable label, and touches no other field. -/
theorem resolveIssue_foldl (lbT : List (String × GiteaLabel)) :
    ∀ (L : List String) (o : CreateIssueOption) (w : List Warning),
    L.foldl
      (fun acc l =>
        match mapLookup lbT l with
        | some label => ({ acc.1 with labels := acc.1.labels ++ [label.id] },
            acc.2)
        | none => (acc.1, acc.2 ++ [Warning.unknownLabel l]))
      (o, w) =
    ({ o with labels := o.labels ++
        L.filterMap (fun l => (mapLookup lbT l).map (fun g => g.id)) },
     w ++ (L.filter (fun l => (mapLookup lbT l).isNone)).map
        Warning.unknownLabel) := by
  intro L
  induction L with
  | nil => intro o w; simp
  | cons n rest ih =>
    intro o w
    simp only [List.foldl_cons]
    cases hn : mapLookup lbT n with
    | some g =>
      rw [ih]
      simp [List.filterMap_cons, List.filter_cons, hn, List.append_assoc]
    | none =>
      rw [ih]
      simp [List.filterMap_cons, List.filter_cons, hn, List.append_assoc]

/-- Full characterisation of `resolveIssue`: title, body and deadline are
copied from the source issue; the milestone id is the destination id when the
referenced title resolves and the int64 zero value `0` otherwise; the label
ids are those of the resolvable label names, in order; the warnings are one
`unknownMilestone` when the milestone reference does not resolve, followed by
one `unknownLabel` per unresolvable label name. -/
theorem resolveIssue_eq (issue : GitlabIssue)
    (msT : List (String × GiteaMilestone)) (lbT : List (String × GiteaLabel)) :
    resolveIssue issue msT lbT =
    ({ title := issue.title, body := issue.description,
       deadline := issue.dueDate,
       milestone :=
         match issue.milestone with
         | none => 0
         | some t =>
           match mapLookup msT t with
           | some g => g.id
           | none => 0,
       labels := issue.labels.filterMap
         (fun l => (mapLookup lbT l).map (fun g => g.id)) },
     (match issue.milestone with
      | none => []
      | some t =>
        match mapLookup msT t with
        | some _ => []
        | none => [Warning.unknownMilestone t]) ++
     (issue.labels.filter (fun l => (mapLookup lbT l).isNone)).map
        Warning.unknownLabel) := by
  simp only [resolveIssue]
  cases hm : issue.milestone with
  | none =>
    rw [resolveIssue_foldl]
    simp
  | some t =>
    cases hg : mapLookup msT t with
    | some g =>
      simp only [hg]
      rw [resolveIssue_foldl]
      simp
    | none =>
      simp only [hg]
      rw [resolveIssue_foldl]
      simp

/-- `migrateIssue`, create branch: when the title is absent from the
destination issue table, the calls are exactly one `CreateIssue` whose
payload carries the source title, body and deadline and the resolved
milestone id and label ids. -/
theorem migrateIssue_create (issue : GitlabIssue)
    (msT : List (String × GiteaMilestone)) (lbT : List (String × GiteaLabel))
    (isT : List (String × GiteaIssue))
    (h : mapLookup isT issue.title = none) :
    (migrateIssue issue msT lbT isT).1 =
      [Call.createIssue issue.title issue.description issue.dueDate
        (resolveIssue issue msT lbT).1.milestone
        (resolveIssue issue msT lbT).1.labels] := by
  simp only [migrateIssue, h]
  rw [resolveIssue_eq]

/-- `migrateIssue`, update branch: when the title is present in the
destination issue table, the calls are exactly one `EditIssue` at the
existing issue's index (carrying title, body, resolved milestone id and
deadline) followed by one `ReplaceIssueLabels` at the same index (carrying
the resolved label ids). -/
theorem migrateIssue_update (issue : GitlabIssue)
    (msT : List (String × GiteaMilestone)) (lbT : List (String × GiteaLabel))
    (isT : List (String × GiteaIssue)) (ex : GiteaIssue)
    (h : mapLookup isT issue.title = some ex) :
    (migrateIssue issue msT lbT isT).1 =
      [Call.editIssue ex.index issue.title issue.description
        (resolveIssue issue msT lbT).1.milestone issue.dueDate,
       Call.replaceIssueLabels ex.index
        (resolveIssue issue msT lbT).1.labels] := by
  simp only [migrateIssue, h]
  rw [resolveIssue_eq]

/-- The warnings `migrateIssue` emits are exactly the resolution warnings,
in both branches. -/
theorem migrateIssue_warnings (issue : GitlabIssue)
    (msT : List (String × GiteaMilestone)) (lbT : List (String × GiteaLabel))
    (isT : List (String × GiteaIssue)) :
    (migrateIssue issue msT lbT isT).2 = (resolveIssue issue msT lbT).2 := by
  simp only [migrateIssue]
  cases mapLookup isT issue.title <;> rfl

/-! ### The source paging protocol -/

/-- Behaviour of the shared source paging loop when page `N` is the first
empty page at or after the start page `p`: the loop issues one request per
page from `p` to `N` inclusive, each with page size 100, and consumes the
items of pages `p .. N - 1` concatenated in page order. -/
theorem sourcePagedLoop_eq {α : Type} (fetch : Nat → Nat → List α)
    (N : Nat) (hN : fetch N 100 = [])
    (hmin : ∀ q, 1 ≤ q → q < N → fetch q 100 ≠ []) :
    ∀ (fuel p : Nat), 1 ≤ p → p ≤ N → N - p < fuel →
    sourcePagedLoop fetch p fuel =
      some ((List.range' p (N - p + 1)).map (fun q => (q, 100)),
        ((List.range' p (N - p)).map (fun q => fetch q 100)).flatten) := by
  intro fuel
  induction fuel with
  | zero => intro p _ _ hf; omega
  | succ fuel ih =>
    intro p hp1 hpN hf
    by_cases hpe : p = N
    · subst hpe
      simp only [sourcePagedLoop, hN, List.isEmpty_nil, if_pos]
      simp [Nat.sub_self]
    · have hlt : p < N := lt_of_le_of_ne hpN hpe
      have hne : fetch p 100 ≠ [] := hmin p hp1 hlt
      have hie : (fetch p 100).isEmpty = false := by
        rw [List.isEmpty_eq_false]
        exact hne
      simp only [sourcePagedLoop, hie, Bool.false_eq_true, if_false]
      rw [ih (p + 1) (by omega) (by omega) (by omega)]
      have h1 : N - p + 1 = (N - (p + 1) + 1) + 1 := by omega
      have h2 : N - p = (N - (p + 1)) + 1 := by omega
      have e1 : List.range' p (N - p + 1) =
          p :: List.range' (p + 1) (N - (p + 1) + 1) := by
        rw [h1, List.range'_succ]
      have e2 : List.range' p (N - p) =
          p :: List.range' (p + 1) (N - (p + 1)) := by
        rw [h2, List.range'_succ]
      rw [e1, e2]
      simp

/-! ### The destination issue reader drains all pages -/

/-- The issue-paging loop of the destination reader, characterised: with a
positive page size and enough fuel it reaches the first empty page and
returns the accumulated map over every remaining destination issue. -/
theorem giteaIssuesLoop_drain (s : GiteaState) (pp : Nat) (hpp : 1 ≤ pp) :
    ∀ (fuel page : Nat) (acc : List (String × GiteaIssue)), 1 ≤ page →
    1 ≤ fuel → s.issues.length + pp ≤ (page - 1) * pp + fuel * pp →
    giteaIssuesLoop s pp acc page fuel =
      some ((s.issues.drop ((page - 1) * pp)).foldl
        (fun m i => mapInsert m i.title i) acc) := by
  intro fuel
  induction fuel with
  | zero => intro page acc _ hf _; omega
  | succ fuel ih =>
    intro page acc hpage _ hlen
    have hlist : listRepoIssues s "all" page pp =
        (s.issues.drop ((page - 1) * pp)).take pp := by
      simp [listRepoIssues, pageSlice]
    by_cases hdrop : s.issues.drop ((page - 1) * pp) = []
    · have hempty : listRepoIssues s "all" page pp = [] := by
        rw [hlist, hdrop, List.take_nil]
      simp [giteaIssuesLoop, hempty, hdrop]
    · have hlenlt : (page - 1) * pp < s.issues.length := by
        by_contra hc
        push_neg at hc
        exact hdrop (List.drop_eq_nil_of_le hc)
      rcases Nat.eq_zero_or_pos fuel with hf0 | hfpos
      · subst hf0
        rw [Nat.one_mul] at hlen
        omega
      have hne : listRepoIssues s "all" page pp ≠ [] := by
        rw [hlist]
        intro hc
        rcases List.take_eq_nil_iff.mp hc with h | h
        · omega
        · exact hdrop h
      have hidx1 : (page + 1 - 1) * pp = (page - 1) * pp + pp := by
        have h : page + 1 - 1 = page - 1 + 1 := by omega
        rw [h, Nat.succ_mul]
      have hlen2 : s.issues.length + pp ≤ (page + 1 - 1) * pp + fuel * pp := by
        rw [hidx1]
        have h2 : (fuel + 1) * pp = fuel * pp + pp := Nat.succ_mul fuel pp
        rw [h2] at hlen
        omega
      simp only [giteaIssuesLoop, if_neg hne]
      rw [ih (page + 1) _ (by omega) hfpos hlen2]
      have hsplit : s.issues.drop ((page - 1) * pp) =
          (s.issues.drop ((page - 1) * pp)).take pp ++
            s.issues.drop ((page + 1 - 1) * pp) := by
        rw [hidx1, ← List.drop_drop]
        exact (List.take_append_drop pp _).symm
      conv_rhs => rw [hsplit]
      rw [List.foldl_append, hlist]

/-- `giteaIssues` with a positive page size and enough fuel returns exactly
the title-keyed table of all destination issues, across all pages. -/
theorem giteaIssues_drain (s : GiteaState) (pp fuel : Nat) (hpp : 1 ≤ pp)
    (hfuel : 1 ≤ fuel) (hlen : s.issues.length + pp ≤ fuel * pp) :
    giteaIssues s pp fuel = some (buildTable s.issues (fun i => i.title)) := by
  unfold giteaIssues
  rw [giteaIssuesLoop_drain s pp hpp fuel 1 [] (le_refl 1) hfuel]
  · simp [buildTable]
  · simpa using hlen

/-! ### Effect lemmas for the call semantics -/

/-- `true` exactly on `createMilestone`. -/
def Call.isCreateMilestone : Call → Bool
  | .createMilestone .. => true
  | _ => false

/-- `true` exactly on `createLabel`. -/
def Call.isCreateLabel : Call → Bool
  | .createLabel .. => true
  | _ => false

/-- `true` exactly on `createIssue`. -/
def Call.isCreateIssue : Call → Bool
  | .createIssue .. => true
  | _ => false

/-- `true` exactly on the calls that modify the destination issue list. -/
def Call.touchesIssues : Call → Bool
  | .createIssue .. => true
  | .editIssue .. => true
  | _ => false

theorem applyCalls_nil (s : GiteaState) : applyCalls s [] = s := rfl

theorem applyCalls_cons (s : GiteaState) (c : Call) (cs : List Call) :
    applyCalls s (c :: cs) = applyCalls (applyCall s c) cs := rfl

theorem applyCalls_append (s : GiteaState) (l1 l2 : List Call) :
    applyCalls s (l1 ++ l2) = applyCalls (applyCalls s l1) l2 :=
  List.foldl_append _ _ _ _

/-- Every call either keeps the milestone list or appends to it. -/
theorem applyCall_milestones_append (s : GiteaState) (c : Call) :
    ∃ ext, (applyCall s c).milestones = s.milestones ++ ext := by
  cases c with
  | createMilestone t d dl => exact ⟨_, rfl⟩
  | createLabel n d col => exact ⟨[], (List.append_nil _).symm⟩
  | createIssue t b dl m ls => exact ⟨[], (List.append_nil _).symm⟩
  | editIssue idx t b m dl => exact ⟨[], (List.append_nil _).symm⟩
  | replaceIssueLabels idx ls => exact ⟨[], (List.append_nil _).symm⟩

/-- Every call either keeps the label list or appends to it. -/
theorem applyCall_labels_append (s : GiteaState) (c : Call) :
    ∃ ext, (applyCall s c).labels = s.labels ++ ext := by
  cases c with
  | createMilestone t d dl => exact ⟨[], (List.append_nil _).symm⟩
  | createLabel n d col => exact ⟨_, rfl⟩
  | createIssue t b dl m ls => exact ⟨[], (List.append_nil _).symm⟩
  | editIssue idx t b m dl => exact ⟨[], (List.append_nil _).symm⟩
  | replaceIssueLabels idx ls => exact ⟨[], (List.append_nil _).symm⟩

theorem applyCalls_milestones_append (s : GiteaState) (calls : List Call) :
    ∃ ext, (applyCalls s calls).milestones = s.milestones ++ ext := by
  induction calls generalizing s with
  | nil => exact ⟨[], (List.append_nil _).symm⟩
  | cons c cs ih =>
    rcases applyCall_milestones_append s c with ⟨e1, h1⟩
    rcases ih (applyCall s c) with ⟨e2, h2⟩
    refine ⟨e1 ++ e2, ?_⟩
    rw [applyCalls_cons, h2, h1, List.append_assoc]

theorem applyCalls_labels_append (s : GiteaState) (calls : List Call) :
    ∃ ext, (applyCalls s calls).labels = s.labels ++ ext := by
  induction calls generalizing s with
  | nil => exact ⟨[], (List.append_nil _).symm⟩
  | cons c cs ih =>
    rcases applyCall_labels_append s c with ⟨e1, h1⟩
    rcases ih (applyCall s c) with ⟨e2, h2⟩
    refine ⟨e1 ++ e2, ?_⟩
    rw [applyCalls_cons, h2, h1, List.append_assoc]

/-- A milestone title present at the destination stays present under any
call sequence (the engine never deletes milestones). -/
theorem applyCalls_milestone_title_mono (s : GiteaState) (calls : List Call)
    (t : String) (h : t ∈ s.milestones.map (fun g => g.title)) :
    t ∈ (applyCalls s calls).milestones.map (fun g => g.title) := by
  rcases applyCalls_milestones_append s calls with ⟨ext, he⟩
  rw [he, List.map_append]
  exact List.mem_append_left _ h

/-- A label name present at the destination stays present under any call
sequence. -/
theorem applyCalls_label_name_mono (s : GiteaState) (calls : List Call)
    (n : String) (h : n ∈ s.labels.map (fun g => g.name)) :
    n ∈ (applyCalls s calls).labels.map (fun g => g.name) := by
  rcases applyCalls_labels_append s calls with ⟨ext, he⟩
  rw [he, List.map_append]
  exact List.mem_append_left _ h

/-- Applying a sequence containing a `createMilestone t` leaves `t` present
among the destination milestone titles. -/
theorem applyCalls_createMilestone_title (calls : List Call) :
    ∀ (s : GiteaState) (t d : String) (dl : Option Nat),
    Call.createMilestone t d dl ∈ calls →
    t ∈ (applyCalls s calls).milestones.map (fun g => g.title) := by
  induction calls with
  | nil => intro s t d dl h; simp at h
  | cons c cs ih =>
    intro s t d dl h
    rw [applyCalls_cons]
    rcases List.mem_cons.mp h with h | h
    · subst h
      apply applyCalls_milestone_title_mono
      simp [applyCall]
    · exact ih _ t d dl h

/-- Applying a sequence containing a `createLabel n` leaves `n` present
among the destination label names. -/
theorem applyCalls_createLabel_name (calls : List Call) :
    ∀ (s : GiteaState) (n d col : String),
    Call.createLabel n d col ∈ calls →
    n ∈ (applyCalls s calls).labels.map (fun g => g.name) := by
  induction calls with
  | nil => intro s n d col h; simp at h
  | cons c cs ih =>
    intro s n d col h
    rw [applyCalls_cons]
    rcases List.mem_cons.mp h with h | h
    · subst h
      apply applyCalls_label_name_mono
      simp [applyCall]
    · exact ih _ n d col h

theorem applyCall_milestones_eq (s : GiteaState) (c : Call)
    (h : c.isCreateMilestone = false) :
    (applyCall s c).milestones = s.milestones := by
  cases c with
  | createMilestone t d dl => simp [Call.isCreateMilestone] at h
  | createLabel n d col => rfl
  | createIssue t b dl m ls => rfl
  | editIssue idx t b m dl => rfl
  | replaceIssueLabels idx ls => rfl

theorem applyCall_labels_eq (s : GiteaState) (c : Call)
    (h : c.isCreateLabel = false) :
    (applyCall s c).labels = s.labels := by
  cases c with
  | createMilestone t d dl => rfl
  | createLabel n d col => simp [Call.isCreateLabel] at h
  | createIssue t b dl m ls => rfl
  | editIssue idx t b m dl => rfl
  | replaceIssueLabels idx ls => rfl

theorem applyCall_issues_eq (s : GiteaState) (c : Call)
    (h : c.touchesIssues = false) :
    (applyCall s c).issues = s.issues := by
  cases c with
  | createMilestone t d dl => rfl
  | createLabel n d col => rfl
  | createIssue t b dl m ls => simp [Call.touchesIssues] at h
  | editIssue idx t b m dl => simp [Call.touchesIssues] at h
  | replaceIssueLabels idx ls => rfl

theorem applyCall_issues_length (s : GiteaState) (c : Call)
    (h : c.isCreateIssue = false) :
    (applyCall s c).issues.length = s.issues.length := by
  cases c with
  | createMilestone t d dl => rfl
  | createLabel n d col => rfl
  | createIssue t b dl m ls => simp [Call.isCreateIssue] at h
  | editIssue idx t b m dl => simp [applyCall]
  | replaceIssueLabels idx ls => rfl

theorem applyCalls_milestones_eq (calls : List Call) :
    ∀ (s : GiteaState), (∀ c ∈ calls, c.isCreateMilestone = false) →
    (applyCalls s calls).milestones = s.milestones := by
  induction calls with
  | nil => intro s _; rfl
  | cons c cs ih =>
    intro s h
    rw [applyCalls_cons, ih _ (fun x hx => h x (List.mem_cons_of_mem _ hx)),
      applyCall_milestones_eq s c (h c (List.mem_cons_self _ _))]

theorem applyCalls_labels_eq (calls : List Call) :
    ∀ (s : GiteaState), (∀ c ∈ calls, c.isCreateLabel = false) →
    (applyCalls s calls).labels = s.labels := by
  induction calls with
  | nil => intro s _; rfl
  | cons c cs ih =>
    intro s h
    rw [applyCalls_cons, ih _ (fun x hx => h x (List.mem_cons_of_mem _ hx)),
      applyCall_labels_eq s c (h c (List.mem_cons_self _ _))]

theorem applyCalls_issues_eq (calls : List Call) :
    ∀ (s : GiteaState), (∀ c ∈ calls, c.touchesIssues = false) →
    (applyCalls s calls).issues = s.issues := by
  induction calls with
  | nil => intro s _; rfl
  | cons c cs ih =>
    intro s h
    rw [applyCalls_cons, ih _ (fun x hx => h x (List.mem_cons_of_mem _ hx)),
      applyCall_issues_eq s c (h c (List.mem_cons_self _ _))]

theorem applyCalls_issues_length (calls : List Call) :
    ∀ (s : GiteaState), (∀ c ∈ calls, c.isCreateIssue = false) →
    (applyCalls s calls).issues.length = s.issues.length := by
  induction calls with
  | nil => intro s _; rfl
  | cons c cs ih =>
    intro s h
    rw [applyCalls_cons, ih _ (fun x hx => h x (List.mem_cons_of_mem _ hx)),
      applyCall_issues_length s c (h c (List.mem_cons_self _ _))]

/-! ### Shape of each phase's call trace -/

theorem milestonePhaseCalls_shape (s : GiteaState) (pp : Nat)
    (src : List GitlabMilestone) :
    ∀ c ∈ milestonePhaseCalls s pp src, c.isCreateMilestone = true := by
  intro c hc
  rw [milestonePhaseCalls, List.mem_flatten] at hc
  rcases hc with ⟨l, hl, hcl⟩
  rcases List.mem_map.mp hl with ⟨m, _, rfl⟩
  rcases hml : mapLookup (giteaMilestones s pp) m.title with _ | g
  · simp only [milestoneCalls, hml, List.mem_singleton] at hcl
    subst hcl
    rfl
  · simp only [milestoneCalls, hml] at hcl
    simp at hcl

theorem labelPhaseCalls_shape (s : GiteaState) (pp : Nat)
    (src : List GitlabLabel) :
    ∀ c ∈ labelPhaseCalls s pp src, c.isCreateLabel = true := by
  intro c hc
  rw [labelPhaseCalls, List.mem_flatten] at hc
  rcases hc with ⟨l, hl, hcl⟩
  rcases List.mem_map.mp hl with ⟨lb, _, rfl⟩
  rcases hlb : mapLookup (giteaLabels s pp) lb.name with _ | g
  · simp only [labelCalls, hlb, List.mem_singleton] at hcl
    subst hcl
    rfl
  · simp only [labelCalls, hlb] at hcl
    simp at hcl

theorem migrateIssue_calls_shape (issue : GitlabIssue)
    (msT : List (String × GiteaMilestone)) (lbT : List (String × GiteaLabel))
    (isT : List (String × GiteaIssue)) :
    ∀ c ∈ (migrateIssue issue msT lbT isT).1,
      c.isCreateMilestone = false ∧ c.isCreateLabel = false := by
  intro c hc
  rcases hl : mapLookup isT issue.title with _ | ex
  · rw [migrateIssue_create issue msT lbT isT hl, List.mem_singleton] at hc
    subst hc
    exact ⟨rfl, rfl⟩
  · rw [migrateIssue_update issue msT lbT isT ex hl] at hc
    rcases List.mem_cons.mp hc with h | h
    · subst h; exact ⟨rfl, rfl⟩
    · rw [List.mem_singleton] at h
      subst h; exact ⟨rfl, rfl⟩

theorem issuePhaseCalls_shape (s : GiteaState) (pp : Nat)
    (src : List GitlabIssue) :
    ∀ c ∈ issuePhaseCalls s pp src,
      c.isCreateMilestone = false ∧ c.isCreateLabel = false := by
  intro c hc
  rw [issuePhaseCalls, List.mem_flatten] at hc
  rcases hc with ⟨l, hl, hcl⟩
  rcases List.mem_map.mp hl with ⟨i, _, rfl⟩
  exact migrateIssue_calls_shape i _ _ _ c hcl

/-! ### The milestone and label phases establish source presence -/

/-- The first page of the all-state destination milestone listing consists of
destination milestones. -/
theorem listRepoMilestones_all_subset (s : GiteaState) (pp : Nat) :
    ∀ g ∈ listRepoMilestones s "all" 1 pp, g ∈ s.milestones := by
  intro g hg
  have h1 : listRepoMilestones s "all" 1 pp = s.milestones.take pp := by
    simp [listRepoMilestones, pageSlice]
  rw [h1] at hg
  exact List.take_subset _ _ hg

theorem listRepoLabels_subset (s : GiteaState) (pp : Nat) :
    ∀ g ∈ listRepoLabels s 1 pp, g ∈ s.labels := by
  intro g hg
  have h1 : listRepoLabels s 1 pp = s.labels.take pp := by
    simp [listRepoLabels, pageSlice]
  rw [h1] at hg
  exact List.take_subset _ _ hg

/-- After the milestone phase, every source milestone title is present at the
destination (it either already was, or the phase created it). -/
theorem milestonePhase_titles (s : GiteaState) (pp : Nat)
    (src : List GitlabMilestone) :
    ∀ m ∈ src, m.title ∈
      ((applyCalls s (milestonePhaseCalls s pp src)).milestones.map
        (fun g => g.title)) := by
  intro m hm
  rcases hl : mapLookup (giteaMilestones s pp) m.title with _ | g
  · apply applyCalls_createMilestone_title _ _ m.title m.description m.dueDate
    rw [milestonePhaseCalls, List.mem_flatten]
    refine ⟨milestoneCalls (giteaMilestones s pp) m,
      List.mem_map.mpr ⟨m, hm, rfl⟩, ?_⟩
    simp [milestoneCalls, hl]
  · have hg := mapLookup_buildTable_sound _ _ _ _ hl
    apply applyCalls_milestone_title_mono
    exact List.mem_map.mpr
      ⟨g, listRepoMilestones_all_subset s pp g hg.1, hg.2⟩

/-- After the label phase, every source label name is present at the
destination. -/
theorem labelPhase_names (s : GiteaState) (pp : Nat)
    (src : List GitlabLabel) :
    ∀ lb ∈ src, lb.name ∈
      ((applyCalls s (labelPhaseCalls s pp src)).labels.map
        (fun g => g.name)) := by
  intro lb hlb
  rcases hl : mapLookup (giteaLabels s pp) lb.name with _ | g
  · apply applyCalls_createLabel_name _ _ lb.name lb.description lb.color
    rw [labelPhaseCalls, List.mem_flatten]
    refine ⟨labelCalls (giteaLabels s pp) lb,
      List.mem_map.mpr ⟨lb, hlb, rfl⟩, ?_⟩
    simp [labelCalls, hl]
  · have hg := mapLookup_buildTable_sound _ _ _ _ hl
    apply applyCalls_label_name_mono
    exact List.mem_map.mpr ⟨g, listRepoLabels_subset s pp g hg.1, hg.2⟩

/-- When every source milestone title is already in the pre-fetched table,
the milestone phase issues no calls at all. -/
theorem milestonePhaseCalls_nil (s : GiteaState) (pp : Nat)
    (src : List GitlabMilestone)
    (h : ∀ m ∈ src, (mapLookup (giteaMilestones s pp) m.title).isSome) :
    milestonePhaseCalls s pp src = [] := by
  rw [milestonePhaseCalls, List.flatten_eq_nil_iff]
  intro l hl
  rcases List.mem_map.mp hl with ⟨m, hm, rfl⟩
  have hs := h m hm
  rcases ho : mapLookup (giteaMilestones s pp) m.title with _ | g
  · rw [ho] at hs; simp at hs
  · simp [milestoneCalls, ho]

/-- When every source label name is already in the pre-fetched table, the
label phase issues no calls at all. -/
theorem labelPhaseCalls_nil (s : GiteaState) (pp : Nat)
    (src : List GitlabLabel)
    (h : ∀ lb ∈ src, (mapLookup (giteaLabels s pp) lb.name).isSome) :
    labelPhaseCalls s pp src = [] := by
  rw [labelPhaseCalls, List.flatten_eq_nil_iff]
  intro l hl
  rcases List.mem_map.mp hl with ⟨lb, hlb, rfl⟩
  have hs := h lb hlb
  rcases ho : mapLookup (giteaLabels s pp) lb.name with _ | g
  · rw [ho] at hs; simp at hs
  · simp [labelCalls, ho]

/-! ### The issue phase: invariants on the destination issue list -/

theorem le_foldlMax (l : List GiteaIssue) :
    ∀ (b : Int), b ≤ l.foldl (fun a i => max a i.index) b := by
  induction l with
  | nil => intro b; exact le_refl b
  | cons x xs ih =>
    intro b
    exact le_trans (le_max_left b x.index) (ih (max b x.index))

theorem mem_le_foldlMax (l : List GiteaIssue) :
    ∀ (b : Int) (x : GiteaIssue), x ∈ l →
    x.index ≤ l.foldl (fun a i => max a i.index) b := by
  induction l with
  | nil => intro b x h; simp at h
  | cons y ys ih =>
    intro b x h
    rcases List.mem_cons.mp h with h | h
    · subst h
      exact le_trans (le_max_right b x.index) (le_foldlMax ys (max b x.index))
    · exact ih _ x h

/-- Every destination issue's index is at most `maxIssueIndex`, so
`maxIssueIndex s + 1` is fresh. -/
theorem mem_le_maxIssueIndex (s : GiteaState) (x : GiteaIssue)
    (h : x ∈ s.issues) : x.index ≤ maxIssueIndex s :=
  mem_le_foldlMax _ 0 x h

theorem map_eq_self {α : Type} (l : List α) (f : α → α)
    (h : ∀ a ∈ l, f a = a) : l.map f = l := by
  calc l.map f = l.map id := List.map_congr_left h
    _ = l := List.map_id l

/-- An `EditIssue` call generated for a table entity is a no-op on the model
state: the addressed issue already carries the written title, provided
destination indexes are unique and newly created issues got fresh indexes. -/
theorem applyCall_edit_noop (cur : GiteaState) (base news : List GiteaIssue)
    (hidx : (base.map (fun i => i.index)).Nodup)
    (hcur : cur.issues = base ++ news)
    (hinv : ∀ n ∈ news, ∀ b ∈ base, n.index ≠ b.index)
    (ex : GiteaIssue) (hex : ex ∈ base) (t body : String) (mv : Int)
    (dl : Option Nat) (ht : ex.title = t) :
    applyCall cur (Call.editIssue ex.index t body mv dl) = cur := by
  show { cur with issues := cur.issues.map fun i =>
      if i.index = ex.index then { i with title := t } else i } = cur
  have hmap : (cur.issues.map fun i =>
      if i.index = ex.index then { i with title := t } else i) = cur.issues := by
    apply map_eq_self
    intro x hx
    rw [hcur] at hx
    rcases List.mem_append.mp hx with hx | hx
    · by_cases he : x.index = ex.index
      · have hxe : x = ex :=
          List.inj_on_of_nodup_map hidx hx hex he
        subst hxe
        rw [if_pos he, ← ht]
      · rw [if_neg he]
    · rw [if_neg (hinv x hx ex hex)]
  rw [hmap]

/-- The issue-phase induction: processing source issues against the fixed
phase-start tables keeps the original destination issues untouched, appends
only fresh-index issues, preserves appended titles, and leaves every
processed source title present at the destination. -/
theorem issuePhase_aux (msT : List (String × GiteaMilestone))
    (lbT : List (String × GiteaLabel)) (base : List GiteaIssue)
    (hidx : (base.map (fun i => i.index)).Nodup) :
    ∀ (src : List GitlabIssue) (cur : GiteaState) (news : List GiteaIssue),
    cur.issues = base ++ news →
    (∀ n ∈ news, ∀ b ∈ base, n.index ≠ b.index) →
    ∃ news2 : List GiteaIssue,
      (applyCalls cur ((src.map (fun i =>
        (migrateIssue i msT lbT
          (buildTable base (fun x => x.title))).1)).flatten)).issues
        = base ++ news2 ∧
      (∀ n ∈ news2, ∀ b ∈ base, n.index ≠ b.index) ∧
      (∀ t, t ∈ news.map (fun x => x.title) →
        t ∈ news2.map (fun x => x.title)) ∧
      (∀ i ∈ src, i.title ∈ base.map (fun x => x.title) ∨
        i.title ∈ news2.map (fun x => x.title)) := by
  intro src
  induction src with
  | nil =>
    intro cur news hcur hinv
    refine ⟨news, ?_, hinv, fun t ht => ht, by simp⟩
    simpa using hcur
  | cons i rest ih =>
    intro cur news hcur hinv
    rw [List.map_cons, List.flatten_cons, applyCalls_append]
    rcases hl : mapLookup (buildTable base (fun x => x.title)) i.title
        with _ | ex
    · -- the title is absent from the phase-start table: a create call
      rw [migrateIssue_create i msT lbT _ hl]
      have happ : (applyCalls cur [Call.createIssue i.title i.description
          i.dueDate (resolveIssue i msT lbT).1.milestone
          (resolveIssue i msT lbT).1.labels]).issues
          = base ++ (news ++
            [{ index := maxIssueIndex cur + 1, title := i.title,
               state := "open" }]) := by
        rw [applyCalls_cons, applyCalls_nil]
        show cur.issues ++ _ = _
        rw [hcur, List.append_assoc]
      have hinv2 : ∀ n ∈ news ++
          [{ index := maxIssueIndex cur + 1, title := i.title,
             state := "open" : GiteaIssue }],
          ∀ b ∈ base, n.index ≠ b.index := by
        intro n hn b hb
        rcases List.mem_append.mp hn with hn | hn
        · exact hinv n hn b hb
        · rw [List.mem_singleton] at hn
          subst hn
          have hble : b.index ≤ maxIssueIndex cur :=
            mem_le_maxIssueIndex cur b
              (by rw [hcur]; exact List.mem_append_left _ hb)
          intro heq
          simp only at heq
          omega
      rcases ih (applyCalls cur [Call.createIssue i.title i.description
          i.dueDate (resolveIssue i msT lbT).1.milestone
          (resolveIssue i msT lbT).1.labels])
          (news ++ [{ index := maxIssueIndex cur + 1, title := i.title,
                      state := "open" }]) happ hinv2
          with ⟨news2, h1, h2, h3, h4⟩
      refine ⟨news2, h1, h2, ?_, ?_⟩
      · intro t ht
        apply h3
        rw [List.map_append]
        exact List.mem_append_left _ ht
      · intro j hj
        rcases List.mem_cons.mp hj with hj | hj
        · subst hj
          right
          apply h3
          rw [List.map_append]
          apply List.mem_append_right
          simp
        · exact h4 j hj
    · -- the title is present: an edit and a replace, both no-ops here
      rw [migrateIssue_update i msT lbT _ ex hl]
      have hex := mapLookup_buildTable_sound _ _ _ _ hl
      have hnoop : applyCalls cur [Call.editIssue ex.index i.title
          i.description (resolveIssue i msT lbT).1.milestone i.dueDate,
          Call.replaceIssueLabels ex.index
            (resolveIssue i msT lbT).1.labels] = cur := by
        rw [applyCalls_cons,
          applyCall_edit_noop cur base news hidx hcur hinv ex hex.1 _ _ _ _
            hex.2, applyCalls_cons, applyCalls_nil]
        rfl
      rw [hnoop]
      rcases ih cur news hcur hinv with ⟨news2, h1, h2, h3, h4⟩
      refine ⟨news2, h1, h2, h3, ?_⟩
      intro j hj
      rcases List.mem_cons.mp hj with hj | hj
      · subst hj
        left
        exact List.mem_map.mpr ⟨ex, hex.1, hex.2⟩
      · exact h4 j hj

theorem isCreateMilestone_shape (c : Call) (h : c.isCreateMilestone = true) :
    c.isCreateLabel = false ∧ c.touchesIssues = false ∧
      c.isCreateIssue = false := by
  cases c with
  | createMilestone t d dl => exact ⟨rfl, rfl, rfl⟩
  | createLabel n d col => simp [Call.isCreateMilestone] at h
  | createIssue t b dl m ls => simp [Call.isCreateMilestone] at h
  | editIssue idx t b m dl => simp [Call.isCreateMilestone] at h
  | replaceIssueLabels idx ls => simp [Call.isCreateMilestone] at h

theorem isCreateLabel_shape (c : Call) (h : c.isCreateLabel = true) :
    c.isCreateMilestone = false ∧ c.touchesIssues = false ∧
      c.isCreateIssue = false := by
  cases c with
  | createMilestone t d dl => simp [Call.isCreateLabel] at h
  | createLabel n d col => exact ⟨rfl, rfl, rfl⟩
  | createIssue t b dl m ls => simp [Call.isCreateLabel] at h
  | editIssue idx t b m dl => simp [Call.isCreateLabel] at h
  | replaceIssueLabels idx ls => simp [Call.isCreateLabel] at h

theorem isCreate_false_shape (c : Call) (h : c.isCreate = false) :
    c.isCreateMilestone = false ∧ c.isCreateLabel = false ∧
      c.isCreateIssue = false := by
  cases c with
  | createMilestone t d dl => simp [Call.isCreate] at h
  | createLabel n d col => simp [Call.isCreate] at h
  | createIssue t b dl m ls => simp [Call.isCreate] at h
  | editIssue idx t b m dl => exact ⟨rfl, rfl, rfl⟩
  | replaceIssueLabels idx ls => exact ⟨rfl, rfl, rfl⟩

/-- When every source issue title is in the phase-start destination issue
table, the issue phase issues no creation call at all (only edits and label
replacements). -/
theorem issuePhaseCalls_no_create (s : GiteaState) (pp : Nat)
    (src : List GitlabIssue)
    (h : ∀ i ∈ src,
      (mapLookup (buildTable s.issues (fun x => x.title)) i.title).isSome) :
    ∀ c ∈ issuePhaseCalls s pp src, c.isCreate = false := by
  intro c hc
  rw [issuePhaseCalls, List.mem_flatten] at hc
  rcases hc with ⟨l, hl, hcl⟩
  rcases List.mem_map.mp hl with ⟨i, hi, rfl⟩
  have hs := h i hi
  rcases ho : mapLookup (buildTable s.issues (fun x => x.title)) i.title
      with _ | ex
  · rw [ho] at hs; simp at hs
  · rw [migrateIssue_update i _ _ _ ex ho] at hcl
    rcases List.mem_cons.mp hcl with h' | h'
    · subst h'; rfl
    · rw [List.mem_singleton] at h'; subst h'; rfl

/-! ### End-to-end facts about one full run -/

/-- After one full run, every source milestone title, label name and issue
title is present at the destination (given unique destination issue
indexes). -/
theorem runMigration_presence (src : GitlabSource) (pp : Nat)
    (d0 : GiteaState)
    (hidx : (d0.issues.map (fun i => i.index)).Nodup) :
    (∀ m ∈ src.milestones, m.title ∈
      (runMigration src pp d0).1.milestones.map (fun g => g.title)) ∧
    (∀ lb ∈ src.labels, lb.name ∈
      (runMigration src pp d0).1.labels.map (fun g => g.name)) ∧
    (∀ i ∈ src.issues, i.title ∈
      (runMigration src pp d0).1.issues.map (fun g => g.title)) := by
  simp only [runMigration]
  have hms_shape := milestonePhaseCalls_shape d0 pp src.milestones
  have hlb_shape := labelPhaseCalls_shape
    (applyCalls d0 (milestonePhaseCalls d0 pp src.milestones)) pp src.labels
  have his_shape := issuePhaseCalls_shape
    (applyCalls (applyCalls d0 (milestonePhaseCalls d0 pp src.milestones))
      (labelPhaseCalls
        (applyCalls d0 (milestonePhaseCalls d0 pp src.milestones)) pp
        src.labels)) pp src.issues
  -- phase 1 leaves labels and issues untouched
  have h1lab : (applyCalls d0 (milestonePhaseCalls d0 pp
      src.milestones)).labels = d0.labels :=
    applyCalls_labels_eq _ _
      (fun c hc => (isCreateMilestone_shape c (hms_shape c hc)).1)
  have h1iss : (applyCalls d0 (milestonePhaseCalls d0 pp
      src.milestones)).issues = d0.issues :=
    applyCalls_issues_eq _ _
      (fun c hc => (isCreateMilestone_shape c (hms_shape c hc)).2.1)
  -- phase 2 leaves milestones and issues untouched
  have h2ms : (applyCalls
      (applyCalls d0 (milestonePhaseCalls d0 pp src.milestones))
      (labelPhaseCalls
        (applyCalls d0 (milestonePhaseCalls d0 pp src.milestones)) pp
        src.labels)).milestones =
      (applyCalls d0 (milestonePhaseCalls d0 pp
        src.milestones)).milestones :=
    applyCalls_milestones_eq _ _
      (fun c hc => (isCreateLabel_shape c (hlb_shape c hc)).1)
  have h2iss : (applyCalls
      (applyCalls d0 (milestonePhaseCalls d0 pp src.milestones))
      (labelPhaseCalls
        (applyCalls d0 (milestonePhaseCalls d0 pp src.milestones)) pp
        src.labels)).issues = d0.issues := by
    rw [applyCalls_issues_eq _ _
      (fun c hc => (isCreateLabel_shape c (hlb_shape c hc)).2.1)]
    exact h1iss
  -- phase 3 leaves milestones and labels untouched
  have h3ms := applyCalls_milestones_eq _
    (applyCalls
      (applyCalls d0 (milestonePhaseCalls d0 pp src.milestones))
      (labelPhaseCalls
        (applyCalls d0 (milestonePhaseCalls d0 pp src.milestones)) pp
        src.labels))
    (fun c hc => (his_shape c hc).1)
  have h3lab := applyCalls_labels_eq _
    (applyCalls
      (applyCalls d0 (milestonePhaseCalls d0 pp src.milestones))
      (labelPhaseCalls
        (applyCalls d0 (milestonePhaseCalls d0 pp src.milestones)) pp
        src.labels))
    (fun c hc => (his_shape c hc).2)
  refine ⟨?_, ?_, ?_⟩
  · -- milestones: established by phase 1, preserved by phases 2 and 3
    intro m hm
    rw [h3ms, h2ms]
    exact milestonePhase_titles d0 pp src.milestones m hm
  · -- labels: established by phase 2, preserved by phase 3
    intro lb hlb
    rw [h3lab]
    exact labelPhase_names _ pp src.labels lb hlb
  · -- issues: established by phase 3 via the invariant
    intro i hi
    rcases issuePhase_aux
      (giteaMilestones (applyCalls
        (applyCalls d0 (milestonePhaseCalls d0 pp src.milestones))
        (labelPhaseCalls
          (applyCalls d0 (milestonePhaseCalls d0 pp src.milestones)) pp
          src.labels)) pp)
      (giteaLabels (applyCalls
        (applyCalls d0 (milestonePhaseCalls d0 pp src.milestones))
        (labelPhaseCalls
          (applyCalls d0 (milestonePhaseCalls d0 pp src.milestones)) pp
          src.labels)) pp)
      d0.issues hidx src.issues
      (applyCalls
        (applyCalls d0 (milestonePhaseCalls d0 pp src.milestones))
        (labelPhaseCalls
          (applyCalls d0 (milestonePhaseCalls d0 pp src.milestones)) pp
          src.labels))
      [] (by rw [h2iss, List.append_nil]) (by intro n hn; simp at hn)
      with ⟨news2, ha, _, _, hd⟩
    have hcalls : issuePhaseCalls
        (applyCalls
          (applyCalls d0 (milestonePhaseCalls d0 pp src.milestones))
          (labelPhaseCalls
            (applyCalls d0 (milestonePhaseCalls d0 pp src.milestones)) pp
            src.labels)) pp src.issues =
        ((src.issues.map (fun j =>
          (migrateIssue j
            (giteaMilestones (applyCalls
              (applyCalls d0 (milestonePhaseCalls d0 pp src.milestones))
              (labelPhaseCalls
                (applyCalls d0 (milestonePhaseCalls d0 pp
                  src.milestones)) pp src.labels)) pp)
            (giteaLabels (applyCalls
              (applyCalls d0 (milestonePhaseCalls d0 pp src.milestones))
              (labelPhaseCalls
                (applyCalls d0 (milestonePhaseCalls d0 pp
                  src.milestones)) pp src.labels)) pp)
            (buildTable d0.issues (fun x => x.title))).1)).flatten) := by
      rw [issuePhaseCalls, h2iss]
    rw [hcalls, ha, List.map_append]
    rcases hd i hi with h | h
    · exact List.mem_append_left _ h
    · exact List.mem_append_right _ h

/-- C3 (amended): provided the destination issue indexes are unique (Gitea
assigns them uniquely) and the destination milestone and label counts after
the first run fit within one page of the destination list API, running the
full three-phase migration a second time against the same source issues no
creation call at all: the destination milestone and label sets are unchanged
and the destination issue count does not grow. -/
theorem runMigration_idempotent (src : GitlabSource) (pp : Nat)
    (d0 : GiteaState)
    (hidx : (d0.issues.map (fun i => i.index)).Nodup)
    (hm : (runMigration src pp d0).1.milestones.length ≤ pp)
    (hlb : (runMigration src pp d0).1.labels.length ≤ pp) :
    (runMigration src pp (runMigration src pp d0).1).1.milestones
        = (runMigration src pp d0).1.milestones ∧
    (runMigration src pp (runMigration src pp d0).1).1.labels
        = (runMigration src pp d0).1.labels ∧
    (runMigration src pp (runMigration src pp d0).1).1.issues.length
        = (runMigration src pp d0).1.issues.length ∧
    (∀ c ∈ (runMigration src pp (runMigration src pp d0).1).2,
      c.isCreate = false) := by
  have hpres := runMigration_presence src pp d0 hidx
  have htabm : listRepoMilestones (runMigration src pp d0).1 "all" 1 pp =
      (runMigration src pp d0).1.milestones := by
    simp only [listRepoMilestones, pageSlice, if_pos rfl, Nat.sub_self,
      Nat.zero_mul, List.drop_zero]
    exact List.take_of_length_le hm
  have htabl : listRepoLabels (runMigration src pp d0).1 1 pp =
      (runMigration src pp d0).1.labels := by
    simp only [listRepoLabels, pageSlice, Nat.sub_self, Nat.zero_mul,
      List.drop_zero]
    exact List.take_of_length_le hlb
  have hmsnil : milestonePhaseCalls (runMigration src pp d0).1 pp
      src.milestones = [] := by
    apply milestonePhaseCalls_nil
    intro m hmm
    rw [giteaMilestones, htabm]
    exact mapLookup_buildTable_isSome _ _ _ (hpres.1 m hmm)
  have hlbnil : labelPhaseCalls (runMigration src pp d0).1 pp
      src.labels = [] := by
    apply labelPhaseCalls_nil
    intro lb hlbb
    rw [giteaLabels, htabl]
    exact mapLookup_buildTable_isSome _ _ _ (hpres.2.1 lb hlbb)
  have hnoc : ∀ c ∈ issuePhaseCalls (runMigration src pp d0).1 pp
      src.issues, c.isCreate = false := by
    apply issuePhaseCalls_no_create
    intro i hi
    exact mapLookup_buildTable_isSome _ _ _ (hpres.2.2 i hi)
  have hrun2 : ∀ d1 : GiteaState,
      milestonePhaseCalls d1 pp src.milestones = [] →
      labelPhaseCalls d1 pp src.labels = [] →
      runMigration src pp d1 =
        (applyCalls d1 (issuePhaseCalls d1 pp src.issues),
         issuePhaseCalls d1 pp src.issues) := by
    intro d1 h1 h2
    simp only [runMigration]
    rw [h1, applyCalls_nil, h2, applyCalls_nil]
    simp
  rw [hrun2 _ hmsnil hlbnil]
  refine ⟨?_, ?_, ?_, ?_⟩
  · exact applyCalls_milestones_eq _ _
      (fun c hc => (isCreate_false_shape c (hnoc c hc)).1)
  · exact applyCalls_labels_eq _ _
      (fun c hc => (isCreate_false_shape c (hnoc c hc)).2.1)
  · exact applyCalls_issues_length _ _
      (fun c hc => (isCreate_false_shape c (hnoc c hc)).2.2)
  · exact hnoc

/-! ## Claim theorems -/

/-- C1: for every source open issue processed in the issues phase, if its
title is absent from the pre-fetched destination issue table, exactly one
create-issue call is issued with payload {title, body, deadline, milestoneID,
labelIDs} and no edit call; if its title is present, exactly one edit-issue
call addressed by the existing destination issue's index, followed by exactly
one replace-issue-labels call at the same index, is issued and never a create
call. -/
theorem C1_create_or_update (issue : GitlabIssue)
    (msT : List (String × GiteaMilestone)) (lbT : List (String × GiteaLabel))
    (isT : List (String × GiteaIssue)) :
    (mapLookup isT issue.title = none →
      (migrateIssue issue msT lbT isT).1 =
        [Call.createIssue issue.title issue.description issue.dueDate
          (resolveIssue issue msT lbT).1.milestone
          (resolveIssue issue msT lbT).1.labels]) ∧
    (∀ ex, mapLookup isT issue.title = some ex →
      (migrateIssue issue msT lbT isT).1 =
        [Call.editIssue ex.index issue.title issue.description
          (resolveIssue issue msT lbT).1.milestone issue.dueDate,
         Call.replaceIssueLabels ex.index
          (resolveIssue issue msT lbT).1.labels]) :=
  ⟨fun h => migrateIssue_create issue msT lbT isT h,
   fun ex h => migrateIssue_update issue msT lbT isT ex h⟩

theorem C1_witness :
    (mapLookup ([] : List (String × GiteaIssue)) "Bug A" = none ∧
     (migrateIssue
       { title := "Bug A", description := "b", dueDate := none,
         milestone := none, labels := [] } [] []
       ([] : List (String × GiteaIssue))).1 =
      [Call.createIssue "Bug A" "b" none 0 []]) ∧
    (mapLookup
      [("Bug A", ({ index := 42, title := "Bug A", state := "open" } :
        GiteaIssue))] "Bug A" =
      some { index := 42, title := "Bug A", state := "open" } ∧
     (migrateIssue
       { title := "Bug A", description := "b", dueDate := none,
         milestone := none, labels := [] } [] []
       [("Bug A", { index := 42, title := "Bug A", state := "open" })]).1 =
      [Call.editIssue 42 "Bug A" "b" 0 none,
       Call.replaceIssueLabels 42 []]) :=
  ⟨⟨rfl, ((C1_create_or_update
      { title := "Bug A", description := "b", dueDate := none,
        milestone := none, labels := [] } [] [] []).1 rfl).trans
      (by decide)⟩,
   ⟨rfl, ((C1_create_or_update
      { title := "Bug A", description := "b", dueDate := none,
        milestone := none, labels := [] } [] []
      [("Bug A", { index := 42, title := "Bug A", state := "open" })]).2
      { index := 42, title := "Bug A", state := "open" } rfl).trans
      (by decide)⟩⟩

/-- C2: for every source milestone and every source label whose title/name
is present (by exact, case-sensitive match) in the table pre-fetched from the
destination at phase start, no create call is issued; for every one absent,
exactly one create call is issued with payload {title, description, deadline}
for milestones and {name, description, color} for labels. -/
theorem C2_create_if_absent (s : GiteaState) (pp : Nat)
    (m : GitlabMilestone) (lb : GitlabLabel) :
    ((mapLookup (giteaMilestones s pp) m.title).isSome →
      milestoneCalls (giteaMilestones s pp) m = []) ∧
    (mapLookup (giteaMilestones s pp) m.title = none →
      milestoneCalls (giteaMilestones s pp) m =
        [Call.createMilestone m.title m.description m.dueDate]) ∧
    ((mapLookup (giteaLabels s pp) lb.name).isSome →
      labelCalls (giteaLabels s pp) lb = []) ∧
    (mapLookup (giteaLabels s pp) lb.name = none →
      labelCalls (giteaLabels s pp) lb =
        [Call.createLabel lb.name lb.description lb.color]) := by
  refine ⟨?_, ?_, ?_, ?_⟩
  · intro h
    rcases ho : mapLookup (giteaMilestones s pp) m.title with _ | g
    · rw [ho] at h; simp at h
    · simp [milestoneCalls, ho]
  · intro h
    simp [milestoneCalls, h]
  · intro h
    rcases ho : mapLookup (giteaLabels s pp) lb.name with _ | g
    · rw [ho] at h; simp at h
    · simp [labelCalls, ho]
  · intro h
    simp [labelCalls, h]

theorem C2_witness :
    ((mapLookup (giteaMilestones
        ⟨[⟨1, "v1", "open"⟩], [⟨2, "bug"⟩], []⟩ 50) "v1").isSome ∧
     milestoneCalls (giteaMilestones
        ⟨[⟨1, "v1", "open"⟩], [⟨2, "bug"⟩], []⟩ 50)
       ⟨"v1", "d", none⟩ = []) ∧
    (mapLookup (giteaMilestones
        ⟨[⟨1, "v1", "open"⟩], [⟨2, "bug"⟩], []⟩ 50) "v2" = none ∧
     milestoneCalls (giteaMilestones
        ⟨[⟨1, "v1", "open"⟩], [⟨2, "bug"⟩], []⟩ 50)
       ⟨"v2", "d", some 9⟩ = [Call.createMilestone "v2" "d" (some 9)]) ∧
    ((mapLookup (giteaLabels
        ⟨[⟨1, "v1", "open"⟩], [⟨2, "bug"⟩], []⟩ 50) "bug").isSome ∧
     labelCalls (giteaLabels
        ⟨[⟨1, "v1", "open"⟩], [⟨2, "bug"⟩], []⟩ 50)
       ⟨"bug", "d", "#fff"⟩ = []) ∧
    (mapLookup (giteaLabels
        ⟨[⟨1, "v1", "open"⟩], [⟨2, "bug"⟩], []⟩ 50) "ui" = none ∧
     labelCalls (giteaLabels
        ⟨[⟨1, "v1", "open"⟩], [⟨2, "bug"⟩], []⟩ 50)
       ⟨"ui", "d", "#0f0"⟩ = [Call.createLabel "ui" "d" "#0f0"]) :=
  ⟨⟨by decide, (C2_create_if_absent ⟨[⟨1, "v1", "open"⟩], [⟨2, "bug"⟩], []⟩
      50 ⟨"v1", "d", none⟩ ⟨"bug", "d", "#fff"⟩).1 (by decide)⟩,
   ⟨by decide, (C2_create_if_absent ⟨[⟨1, "v1", "open"⟩], [⟨2, "bug"⟩], []⟩
      50 ⟨"v2", "d", some 9⟩ ⟨"bug", "d", "#fff"⟩).2.1 (by decide)⟩,
   ⟨by decide, (C2_create_if_absent ⟨[⟨1, "v1", "open"⟩], [⟨2, "bug"⟩], []⟩
      50 ⟨"v1", "d", none⟩ ⟨"bug", "d", "#fff"⟩).2.2.1 (by decide)⟩,
   ⟨by decide, (C2_create_if_absent ⟨[⟨1, "v1", "open"⟩], [⟨2, "bug"⟩], []⟩
      50 ⟨"v1", "d", none⟩ ⟨"ui", "d", "#0f0"⟩).2.2.2 (by decide)⟩⟩

theorem C3_witness :
    (((⟨[], [], []⟩ : GiteaState).issues.map (fun i => i.index)).Nodup ∧
     (runMigration ⟨[⟨"A", "", none⟩], [⟨"l", "", "c"⟩],
        [⟨"i", "", none, none, []⟩]⟩ 50 ⟨[], [], []⟩).1.milestones.length
        ≤ 50 ∧
     (runMigration ⟨[⟨"A", "", none⟩], [⟨"l", "", "c"⟩],
        [⟨"i", "", none, none, []⟩]⟩ 50 ⟨[], [], []⟩).1.labels.length
        ≤ 50) ∧
    ((runMigration ⟨[⟨"A", "", none⟩], [⟨"l", "", "c"⟩],
        [⟨"i", "", none, none, []⟩]⟩ 50
      (runMigration ⟨[⟨"A", "", none⟩], [⟨"l", "", "c"⟩],
        [⟨"i", "", none, none, []⟩]⟩ 50 ⟨[], [], []⟩).1).1.milestones
      = (runMigration ⟨[⟨"A", "", none⟩], [⟨"l", "", "c"⟩],
        [⟨"i", "", none, none, []⟩]⟩ 50 ⟨[], [], []⟩).1.milestones ∧
     (runMigration ⟨[⟨"A", "", none⟩], [⟨"l", "", "c"⟩],
        [⟨"i", "", none, none, []⟩]⟩ 50
      (runMigration ⟨[⟨"A", "", none⟩], [⟨"l", "", "c"⟩],
        [⟨"i", "", none, none, []⟩]⟩ 50 ⟨[], [], []⟩).1).1.labels
      = (runMigration ⟨[⟨"A", "", none⟩], [⟨"l", "", "c"⟩],
        [⟨"i", "", none, none, []⟩]⟩ 50 ⟨[], [], []⟩).1.labels ∧
     (runMigration ⟨[⟨"A", "", none⟩], [⟨"l", "", "c"⟩],
        [⟨"i", "", none, none, []⟩]⟩ 50
      (runMigration ⟨[⟨"A", "", none⟩], [⟨"l", "", "c"⟩],
        [⟨"i", "", none, none, []⟩]⟩ 50 ⟨[], [], []⟩).1).1.issues.length
      = (runMigration ⟨[⟨"A", "", none⟩], [⟨"l", "", "c"⟩],
        [⟨"i", "", none, none, []⟩]⟩ 50 ⟨[], [], []⟩).1.issues.length ∧
     (∀ c ∈ (runMigration ⟨[⟨"A", "", none⟩], [⟨"l", "", "c"⟩],
        [⟨"i", "", none, none, []⟩]⟩ 50
      (runMigration ⟨[⟨"A", "", none⟩], [⟨"l", "", "c"⟩],
        [⟨"i", "", none, none, []⟩]⟩ 50 ⟨[], [], []⟩).1).2,
       c.isCreate = false)) :=
  ⟨⟨by decide, by decide, by decide⟩,
   runMigration_idempotent ⟨[⟨"A", "", none⟩], [⟨"l", "", "c"⟩],
      [⟨"i", "", none, none, []⟩]⟩ 50 ⟨[], [], []⟩
     (by decide) (by decide) (by decide)⟩

/-- C3 (counterexample): with a destination page size of 1 and two source
milestones, the first run creates both milestones but the second run's
pre-fetched table only holds the first page, so the second run issues a
milestone create call again and the destination milestone set grows — the
claim as stated (no milestone create calls on the second run, identical
milestone sets) is false for the code. -/
theorem C3_counterexample :
    (runMigration ⟨[⟨"A", "", none⟩, ⟨"B", "", none⟩], [], []⟩ 1
       ⟨[], [], []⟩).1.milestones.length = 2 ∧
    (runMigration ⟨[⟨"A", "", none⟩, ⟨"B", "", none⟩], [], []⟩ 1
      (runMigration ⟨[⟨"A", "", none⟩, ⟨"B", "", none⟩], [], []⟩ 1
        ⟨[], [], []⟩).1).1.milestones.length = 3 ∧
    Call.createMilestone "B" "" none ∈
      (runMigration ⟨[⟨"A", "", none⟩, ⟨"B", "", none⟩], [], []⟩ 1
        (runMigration ⟨[⟨"A", "", none⟩, ⟨"B", "", none⟩], [], []⟩ 1
          ⟨[], [], []⟩).1).2 := by
  decide

/-- C4 (amended): the destination issue reader (`giteaIssues`) fully drains
pagination and returns a table containing an entry for every destination
issue across all pages; the destination milestone and label readers
(`giteaMilestones`, `giteaLabels`) issue a single first-page list request, so
their tables are guaranteed complete only when the destination milestones or
labels fit within one page. -/
theorem C4_reader_tables (s : GiteaState) (pp fuel : Nat) (hpp : 1 ≤ pp)
    (hfuel : 1 ≤ fuel) (hlen : s.issues.length + pp ≤ fuel * pp) :
    giteaIssues s pp fuel =
      some (buildTable s.issues (fun i => i.title)) ∧
    (∀ i ∈ s.issues,
      (mapLookup (buildTable s.issues (fun x => x.title)) i.title).isSome) ∧
    (s.milestones.length ≤ pp → ∀ g ∈ s.milestones,
      (mapLookup (giteaMilestones s pp) g.title).isSome) ∧
    (s.labels.length ≤ pp → ∀ g ∈ s.labels,
      (mapLookup (giteaLabels s pp) g.name).isSome) := by
  refine ⟨giteaIssues_drain s pp fuel hpp hfuel hlen, ?_, ?_, ?_⟩
  · intro i hi
    exact mapLookup_buildTable_isSome _ _ _ (List.mem_map.mpr ⟨i, hi, rfl⟩)
  · intro hms g hg
    have htab : listRepoMilestones s "all" 1 pp = s.milestones := by
      simp only [listRepoMilestones, pageSlice, if_pos rfl, Nat.sub_self,
        Nat.zero_mul, List.drop_zero]
      exact List.take_of_length_le hms
    rw [giteaMilestones, htab]
    exact mapLookup_buildTable_isSome _ _ _ (List.mem_map.mpr ⟨g, hg, rfl⟩)
  · intro hlb g hg
    have htab : listRepoLabels s 1 pp = s.labels := by
      simp only [listRepoLabels, pageSlice, Nat.sub_self, Nat.zero_mul,
        List.drop_zero]
      exact List.take_of_length_le hlb
    rw [giteaLabels, htab]
    exact mapLookup_buildTable_isSome _ _ _ (List.mem_map.mpr ⟨g, hg, rfl⟩)

/-- C4 (counterexample): with two destination milestones and a page size of
1, the milestone table misses the second milestone, and likewise for labels —
so the claim that `listAllMilestones` and `listAllLabels` drain pagination
and contain an entry for every destination entity is false for the code. -/
theorem C4_counterexample :
    (⟨2, "b", "open"⟩ : GiteaMilestone) ∈
      (⟨[⟨1, "a", "open"⟩, ⟨2, "b", "open"⟩], [⟨1, "x"⟩, ⟨2, "y"⟩], []⟩ :
        GiteaState).milestones ∧
    mapLookup (giteaMilestones
      ⟨[⟨1, "a", "open"⟩, ⟨2, "b", "open"⟩], [⟨1, "x"⟩, ⟨2, "y"⟩], []⟩ 1)
      "b" = none ∧
    (⟨2, "y"⟩ : GiteaLabel) ∈
      (⟨[⟨1, "a", "open"⟩, ⟨2, "b", "open"⟩], [⟨1, "x"⟩, ⟨2, "y"⟩], []⟩ :
        GiteaState).labels ∧
    mapLookup (giteaLabels
      ⟨[⟨1, "a", "open"⟩, ⟨2, "b", "open"⟩], [⟨1, "x"⟩, ⟨2, "y"⟩], []⟩ 1)
      "y" = none := by
  decide

theorem C4_witness :
    (1 ≤ 2 ∧ 1 ≤ 3 ∧
      (⟨[⟨1, "m", "open"⟩], [⟨1, "x"⟩],
        [⟨1, "i1", "open"⟩, ⟨2, "i2", "open"⟩, ⟨3, "i3", "closed"⟩]⟩ :
        GiteaState).issues.length + 2 ≤ 3 * 2) ∧
    (giteaIssues ⟨[⟨1, "m", "open"⟩], [⟨1, "x"⟩],
        [⟨1, "i1", "open"⟩, ⟨2, "i2", "open"⟩, ⟨3, "i3", "closed"⟩]⟩ 2 3 =
      some (buildTable
        (⟨[⟨1, "m", "open"⟩], [⟨1, "x"⟩],
          [⟨1, "i1", "open"⟩, ⟨2, "i2", "open"⟩, ⟨3, "i3", "closed"⟩]⟩ :
          GiteaState).issues (fun i => i.title)) ∧
     (∀ i ∈ (⟨[⟨1, "m", "open"⟩], [⟨1, "x"⟩],
        [⟨1, "i1", "open"⟩, ⟨2, "i2", "open"⟩, ⟨3, "i3", "closed"⟩]⟩ :
        GiteaState).issues,
       (mapLookup (buildTable
         (⟨[⟨1, "m", "open"⟩], [⟨1, "x"⟩],
           [⟨1, "i1", "open"⟩, ⟨2, "i2", "open"⟩, ⟨3, "i3", "closed"⟩]⟩ :
           GiteaState).issues (fun x => x.title)) i.title).isSome) ∧
     ((⟨[⟨1, "m", "open"⟩], [⟨1, "x"⟩],
        [⟨1, "i1", "open"⟩, ⟨2, "i2", "open"⟩, ⟨3, "i3", "closed"⟩]⟩ :
        GiteaState).milestones.length ≤ 2 →
       ∀ g ∈ (⟨[⟨1, "m", "open"⟩], [⟨1, "x"⟩],
         [⟨1, "i1", "open"⟩, ⟨2, "i2", "open"⟩, ⟨3, "i3", "closed"⟩]⟩ :
         GiteaState).milestones,
       (mapLookup (giteaMilestones
         ⟨[⟨1, "m", "open"⟩], [⟨1, "x"⟩],
           [⟨1, "i1", "open"⟩, ⟨2, "i2", "open"⟩, ⟨3, "i3", "closed"⟩]⟩ 2)
         g.title).isSome) ∧
     ((⟨[⟨1, "m", "open"⟩], [⟨1, "x"⟩],
        [⟨1, "i1", "open"⟩, ⟨2, "i2", "open"⟩, ⟨3, "i3", "closed"⟩]⟩ :
        GiteaState).labels.length ≤ 2 →
       ∀ g ∈ (⟨[⟨1, "m", "open"⟩], [⟨1, "x"⟩],
         [⟨1, "i1", "open"⟩, ⟨2, "i2", "open"⟩, ⟨3, "i3", "closed"⟩]⟩ :
         GiteaState).labels,
       (mapLookup (giteaLabels
         ⟨[⟨1, "m", "open"⟩], [⟨1, "x"⟩],
           [⟨1, "i1", "open"⟩, ⟨2, "i2", "open"⟩, ⟨3, "i3", "closed"⟩]⟩ 2)
         g.name).isSome)) :=
  ⟨⟨by decide, by decide, by decide⟩,
   C4_reader_tables
     ⟨[⟨1, "m", "open"⟩], [⟨1, "x"⟩],
       [⟨1, "i1", "open"⟩, ⟨2, "i2", "open"⟩, ⟨3, "i3", "closed"⟩]⟩ 2 3
     (by decide) (by decide) (by decide)⟩

/-- C5: source pagination (the shared loop all three phases instantiate)
requests pages with fixed page size 100 starting at page 1 and incrementing
by 1, terminates exactly on the first empty page (a partial page does not
terminate the loop), and consumes every item of every non-empty page in
returned order: with first empty page `N` it issues the requests
`(1,100) … (N,100)` and consumes the concatenation of pages `1 … N-1`. -/
theorem C5_source_pagination {α : Type} (fetch : Nat → Nat → List α)
    (N fuel : Nat) (h1 : 1 ≤ N) (hN : fetch N 100 = [])
    (hmin : ∀ q, 1 ≤ q → q < N → fetch q 100 ≠ []) (hfuel : N ≤ fuel) :
    sourcePagedLoop fetch 1 fuel =
      some ((List.range' 1 N).map (fun q => (q, 100)),
        ((List.range' 1 (N - 1)).map (fun q => fetch q 100)).flatten) := by
  have h := sourcePagedLoop_eq fetch N hN hmin fuel 1 (le_refl 1) h1
    (by omega)
  have e : N - 1 + 1 = N := by omega
  rw [e] at h
  exact h

set_option maxRecDepth 8000 in
theorem C5_witness :
    (1 ≤ 4 ∧
     (fun (p : Nat) (_ : Nat) => pageSlice (List.range 237) p 100) 4 100
       = [] ∧
     (∀ q, 1 ≤ q → q < 4 →
       (fun (p : Nat) (_ : Nat) => pageSlice (List.range 237) p 100) q 100
         ≠ []) ∧
     4 ≤ 4) ∧
    sourcePagedLoop
        (fun (p : Nat) (_ : Nat) => pageSlice (List.range 237) p 100) 1 4 =
      some ((List.range' 1 4).map (fun q => (q, 100)),
        ((List.range' 1 3).map (fun q =>
          (fun (p : Nat) (_ : Nat) =>
            pageSlice (List.range 237) p 100) q 100)).flatten) ∧
    ((List.range' 1 4).map (fun q : Nat => (q, 100))).length = 4 ∧
    (((List.range' 1 3).map (fun q =>
      (fun (p : Nat) (_ : Nat) =>
        pageSlice (List.range 237) p 100) q 100)).flatten).length = 237 ∧
    ((fun (p : Nat) (_ : Nat) =>
      pageSlice (List.range 237) p 100) 3 100).length = 37 :=
  ⟨⟨by decide, by decide,
    by (intro q hq1 hq2; interval_cases q <;> decide), by decide⟩,
   C5_source_pagination
     (fun (p : Nat) (_ : Nat) => pageSlice (List.range 237) p 100) 4 4
     (by decide) (by decide)
     (by intro q hq1 hq2; interval_cases q <;> decide) (by decide),
   by decide, by decide, by decide⟩

/-- C6: reference resolution of one source issue: an unresolved milestone
reference attaches no milestone id (the payload keeps the zero value `0`)
and emits exactly one unknown-milestone warning; every unresolvable label
name is dropped from the payload's label id list (which keeps exactly the
resolvable ones, in order) and emits one unknown-label warning each; and
resolution never prevents the issue's migration — a mutation call is always
issued. -/
theorem C6_reference_resolution (issue : GitlabIssue)
    (msT : List (String × GiteaMilestone)) (lbT : List (String × GiteaLabel))
    (isT : List (String × GiteaIssue)) :
    ((resolveIssue issue msT lbT).1.labels =
      issue.labels.filterMap
        (fun l => (mapLookup lbT l).map (fun g => g.id))) ∧
    ((resolveIssue issue msT lbT).2 =
      (match issue.milestone with
       | none => []
       | some t =>
         match mapLookup msT t with
         | some _ => []
         | none => [Warning.unknownMilestone t]) ++
      (issue.labels.filter (fun l => (mapLookup lbT l).isNone)).map
        Warning.unknownLabel) ∧
    (∀ t, issue.milestone = some t → mapLookup msT t = none →
      (resolveIssue issue msT lbT).1.milestone = 0 ∧
      ((resolveIssue issue msT lbT).2.countP
        (fun w => match w with
          | Warning.unknownMilestone _ => true
          | _ => false)) = 1) ∧
    (migrateIssue issue msT lbT isT).1 ≠ [] := by
  refine ⟨?_, ?_, ?_, ?_⟩
  · rw [resolveIssue_eq]
  · rw [resolveIssue_eq]
  · intro t ht hl
    constructor
    · rw [resolveIssue_eq]
      simp [ht, hl]
    · rw [resolveIssue_eq]
      simp only [ht, hl, List.countP_append, List.countP_map]
      have h1 : List.countP
          (fun w => match w with
            | Warning.unknownMilestone _ => true
            | _ => false) [Warning.unknownMilestone t] = 1 := rfl
      have h2 : List.countP
          ((fun w => match w with
            | Warning.unknownMilestone _ => true
            | _ => false) ∘ Warning.unknownLabel)
          (issue.labels.filter (fun l => (mapLookup lbT l).isNone)) = 0 := by
        rw [List.countP_eq_zero]
        intro a _
        simp [Function.comp]
      rw [h1, h2]
  · simp only [migrateIssue]
    cases mapLookup isT issue.title <;> simp

theorem C6_witness :
    (({ title := "i", description := "", dueDate := none,
        milestone := some "m", labels := ["a", "b"] } :
        GitlabIssue).milestone = some "m" ∧
     mapLookup ([] : List (String × GiteaMilestone)) "m" = none) ∧
    ((resolveIssue
        { title := "i", description := "", dueDate := none,
          milestone := some "m", labels := ["a", "b"] }
        [] [("a", ⟨5, "a"⟩)]).1.labels = [5] ∧
     (resolveIssue
        { title := "i", description := "", dueDate := none,
          milestone := some "m", labels := ["a", "b"] }
        [] [("a", ⟨5, "a"⟩)]).2 =
       [Warning.unknownMilestone "m", Warning.unknownLabel "b"] ∧
     (resolveIssue
        { title := "i", description := "", dueDate := none,
          milestone := some "m", labels := ["a", "b"] }
        [] [("a", ⟨5, "a"⟩)]).1.milestone = 0 ∧
     (resolveIssue
        { title := "i", description := "", dueDate := none,
          milestone := some "m", labels := ["a", "b"] }
        [] [("a", ⟨5, "a"⟩)]).2.countP
       (fun w => match w with
         | Warning.unknownMilestone _ => true
         | _ => false) = 1 ∧
     (migrateIssue
        { title := "i", description := "", dueDate := none,
          milestone := some "m", labels := ["a", "b"] }
        [] [("a", ⟨5, "a"⟩)] []).1 ≠ []) :=
  ⟨⟨rfl, rfl⟩,
   ⟨((C6_reference_resolution
      { title := "i", description := "", dueDate := none,
        milestone := some "m", labels := ["a", "b"] }
      [] [("a", ⟨5, "a"⟩)] []).1).trans (by decide),
    ((C6_reference_resolution
      { title := "i", description := "", dueDate := none,
        milestone := some "m", labels := ["a", "b"] }
      [] [("a", ⟨5, "a"⟩)] []).2.1).trans (by decide),
    ((C6_reference_resolution
      { title := "i", description := "", dueDate := none,
        milestone := some "m", labels := ["a", "b"] }
      [] [("a", ⟨5, "a"⟩)] []).2.2.1 "m" rfl rfl).1,
    ((C6_reference_resolution
      { title := "i", description := "", dueDate := none,
        milestone := some "m", labels := ["a", "b"] }
      [] [("a", ⟨5, "a"⟩)] []).2.2.1 "m" rfl rfl).2,
    (C6_reference_resolution
      { title := "i", description := "", dueDate := none,
        milestone := some "m", labels := ["a", "b"] }
      [] [("a", ⟨5, "a"⟩)] []).2.2.2⟩⟩

/-- C7: the run executes the three phases in the fixed order milestones,
labels, issues; the first error of a phase aborts the run immediately (later
phases are not entered) and is propagated wrapped with the phase-name prefix;
the run succeeds exactly when all three phases return without error, in which
case all three phases ran. -/
theorem C7_phase_order (lb is : Except String Unit) :
    (∀ e, migrateProject (.error e) lb is =
      (["milestones"], .error ("migrating milestones: " ++ e))) ∧
    (∀ e, migrateProject (.ok ()) (.error e) is =
      (["milestones", "labels"], .error ("migrating labels: " ++ e))) ∧
    (∀ e, migrateProject (.ok ()) (.ok ()) (.error e) =
      (["milestones", "labels", "issues"],
       .error ("migrating issues: " ++ e))) ∧
    migrateProject (.ok ()) (.ok ()) (.ok ()) =
      (["milestones", "labels", "issues"], .ok ()) ∧
    (∀ ms, (migrateProject ms lb is).2 = .ok () ↔
      (ms = .ok () ∧ lb = .ok () ∧ is = .ok ())) := by
  refine ⟨fun e => rfl, fun e => rfl, fun e => rfl, rfl, ?_⟩
  intro ms
  cases ms with
  | error e => simp [migrateProject]
  | ok u =>
    cases u
    cases lb with
    | error e => simp [migrateProject]
    | ok u2 =>
      cases u2
      cases is with
      | error e => simp [migrateProject]
      | ok u3 =>
        cases u3
        simp [migrateProject]

/-- C8: the destination milestone listing used to build the presence table
requests all states, so any destination milestone within the fetched page —
whatever its state, including closed — is recognised as already migrated and
suppresses the create; in the spec's scenario (destination has closed "v1",
source has open "v1" and "v2") phase 1 issues exactly one create call, for
"v2", and never attempts "v1". -/
theorem C8_all_states :
    (∀ (s : GiteaState) (pp : Nat) (m : GitlabMilestone) (g : GiteaMilestone),
      g ∈ s.milestones.take pp → g.title = m.title →
      milestoneCalls (giteaMilestones s pp) m = []) ∧
    milestonePhaseCalls ⟨[⟨7, "v1", "closed"⟩], [], []⟩ 50
      [⟨"v1", "", none⟩, ⟨"v2", "", none⟩] =
      [Call.createMilestone "v2" "" none] := by
  constructor
  · intro s pp m g hg ht
    have h1 : listRepoMilestones s "all" 1 pp = s.milestones.take pp := by
      simp [listRepoMilestones, pageSlice]
    have hk : m.title ∈ (listRepoMilestones s "all" 1 pp).map
        (fun x => x.title) := by
      rw [h1]
      exact List.mem_map.mpr ⟨g, hg, ht⟩
    have hs := mapLookup_buildTable_isSome _ _ _ hk
    rcases ho : mapLookup (giteaMilestones s pp) m.title with _ | g2
    · rw [giteaMilestones] at ho
      rw [ho] at hs
      simp at hs
    · simp [milestoneCalls, ho]
  · decide

theorem C8_witness :
    ((⟨7, "v1", "closed"⟩ : GiteaMilestone) ∈
      (⟨[⟨7, "v1", "closed"⟩], [], []⟩ : GiteaState).milestones.take 50 ∧
     (⟨7, "v1", "closed"⟩ : GiteaMilestone).title =
       (⟨"v1", "", none⟩ : GitlabMilestone).title) ∧
    milestoneCalls
      (giteaMilestones ⟨[⟨7, "v1", "closed"⟩], [], []⟩ 50)
      ⟨"v1", "", none⟩ = [] :=
  ⟨⟨by decide, by decide⟩,
   C8_all_states.1 ⟨[⟨7, "v1", "closed"⟩], [], []⟩ 50
     ⟨"v1", "", none⟩ ⟨7, "v1", "closed"⟩ (by decide) (by decide)⟩

/-- C9: the destination issue table is built once before streaming and never
refreshed mid-phase: two source issues sharing a title that is initially
absent both take the create path, so the phase issues two create calls with
that title and the destination ends up with a second issue of the same
title. -/
theorem C9_stale_issue_table (s : GiteaState) (pp : Nat)
    (i1 i2 : GitlabIssue) (hdup : i2.title = i1.title)
    (habs : mapLookup (buildTable s.issues (fun x => x.title)) i1.title
      = none) :
    issuePhaseCalls s pp [i1, i2] =
      [Call.createIssue i1.title i1.description i1.dueDate
        (resolveIssue i1 (giteaMilestones s pp)
          (giteaLabels s pp)).1.milestone
        (resolveIssue i1 (giteaMilestones s pp) (giteaLabels s pp)).1.labels,
       Call.createIssue i2.title i2.description i2.dueDate
        (resolveIssue i2 (giteaMilestones s pp)
          (giteaLabels s pp)).1.milestone
        (resolveIssue i2 (giteaMilestones s pp)
          (giteaLabels s pp)).1.labels] ∧
    (applyCalls s (issuePhaseCalls s pp [i1, i2])).issues.map
      (fun x => x.title) =
      s.issues.map (fun x => x.title) ++ [i1.title, i2.title] := by
  have habs2 : mapLookup (buildTable s.issues (fun x => x.title)) i2.title
      = none := by
    rw [hdup]
    exact habs
  have hcalls : issuePhaseCalls s pp [i1, i2] =
      [Call.createIssue i1.title i1.description i1.dueDate
        (resolveIssue i1 (giteaMilestones s pp)
          (giteaLabels s pp)).1.milestone
        (resolveIssue i1 (giteaMilestones s pp) (giteaLabels s pp)).1.labels,
       Call.createIssue i2.title i2.description i2.dueDate
        (resolveIssue i2 (giteaMilestones s pp)
          (giteaLabels s pp)).1.milestone
        (resolveIssue i2 (giteaMilestones s pp)
          (giteaLabels s pp)).1.labels] := by
    rw [issuePhaseCalls]
    rw [List.map_cons, List.map_cons, List.map_nil, List.flatten_cons,
      List.flatten_cons, List.flatten_nil,
      migrateIssue_create i1 _ _ _ habs, migrateIssue_create i2 _ _ _ habs2]
    simp
  refine ⟨hcalls, ?_⟩
  rw [hcalls, applyCalls_cons, applyCalls_cons, applyCalls_nil]
  show ((s.issues ++ _) ++ _).map (fun x => x.title) = _
  simp

theorem C9_witness :
    ((⟨"x", "b2", none, none, []⟩ : GitlabIssue).title =
      (⟨"x", "b1", none, none, []⟩ : GitlabIssue).title ∧
     mapLookup (buildTable (⟨[], [], []⟩ : GiteaState).issues
       (fun x => x.title)) (⟨"x", "b1", none, none, []⟩ :
         GitlabIssue).title = none) ∧
    (issuePhaseCalls ⟨[], [], []⟩ 50
      [⟨"x", "b1", none, none, []⟩, ⟨"x", "b2", none, none, []⟩] =
      [Call.createIssue "x" "b1" none 0 [],
       Call.createIssue "x" "b2" none 0 []] ∧
     (applyCalls ⟨[], [], []⟩ (issuePhaseCalls ⟨[], [], []⟩ 50
       [⟨"x", "b1", none, none, []⟩, ⟨"x", "b2", none, none, []⟩])).issues.map
       (fun x => x.title) = ["x", "x"]) :=
  ⟨⟨rfl, rfl⟩,
   ⟨((C9_stale_issue_table ⟨[], [], []⟩ 50 ⟨"x", "b1", none, none, []⟩
       ⟨"x", "b2", none, none, []⟩ rfl rfl).1).trans (by decide),
    ((C9_stale_issue_table ⟨[], [], []⟩ 50 ⟨"x", "b1", none, none, []⟩
       ⟨"x", "b2", none, none, []⟩ rfl rfl).2).trans (by decide)⟩⟩

/-- C10: for a source issue whose title exists at the destination, the edit
call always carries a milestone value and the replace-labels call always
carries the full resolved label list: with no milestone or an unresolvable
milestone title, the value sent is `0`, and with no resolvable labels the
label list sent is empty — so updating always overwrites the destination
issue's milestone link and entire label set, including clearing them. -/
theorem C10_unconditional_overwrite (issue : GitlabIssue)
    (msT : List (String × GiteaMilestone)) (lbT : List (String × GiteaLabel))
    (isT : List (String × GiteaIssue)) (ex : GiteaIssue)
    (h : mapLookup isT issue.title = some ex) :
    (migrateIssue issue msT lbT isT).1 =
      [Call.editIssue ex.index issue.title issue.description
        (resolveIssue issue msT lbT).1.milestone issue.dueDate,
       Call.replaceIssueLabels ex.index
        (resolveIssue issue msT lbT).1.labels] ∧
    (issue.milestone = none →
      (resolveIssue issue msT lbT).1.milestone = 0) ∧
    (∀ t, issue.milestone = some t → mapLookup msT t = none →
      (resolveIssue issue msT lbT).1.milestone = 0) ∧
    ((∀ l ∈ issue.labels, mapLookup lbT l = none) →
      (resolveIssue issue msT lbT).1.labels = []) := by
  refine ⟨migrateIssue_update issue msT lbT isT ex h, ?_, ?_, ?_⟩
  · intro hm
    rw [resolveIssue_eq]
    simp [hm]
  · intro t hm hl
    rw [resolveIssue_eq]
    simp [hm, hl]
  · intro hall
    rw [resolveIssue_eq]
    simp only []
    rw [List.filterMap_eq_nil_iff]
    intro l hl
    rw [hall l hl]
    rfl

theorem C10_witness :
    (mapLookup [("x", (⟨3, "x", "open"⟩ : GiteaIssue))] "x" =
      some ⟨3, "x", "open"⟩ ∧
     (⟨"x", "b", none, none, ["u"]⟩ : GitlabIssue).milestone = none ∧
     (∀ l ∈ (⟨"x", "b", none, none, ["u"]⟩ : GitlabIssue).labels,
       mapLookup ([] : List (String × GiteaLabel)) l = none)) ∧
    ((migrateIssue ⟨"x", "b", none, none, ["u"]⟩ [] []
       [("x", ⟨3, "x", "open"⟩)]).1 =
      [Call.editIssue 3 "x" "b" 0 none, Call.replaceIssueLabels 3 []] ∧
     (resolveIssue ⟨"x", "b", none, none, ["u"]⟩ [] []).1.milestone = 0 ∧
     (resolveIssue ⟨"x", "b", none, none, ["u"]⟩ [] []).1.labels = []) :=
  ⟨⟨rfl, rfl, by decide⟩,
   ⟨((C10_unconditional_overwrite ⟨"x", "b", none, none, ["u"]⟩ [] []
       [("x", ⟨3, "x", "open"⟩)] ⟨3, "x", "open"⟩ rfl).1).trans (by decide),
    (C10_unconditional_overwrite ⟨"x", "b", none, none, ["u"]⟩ [] []
       [("x", ⟨3, "x", "open"⟩)] ⟨3, "x", "open"⟩ rfl).2.1 rfl,
    (C10_unconditional_overwrite ⟨"x", "b", none, none, ["u"]⟩ [] []
       [("x", ⟨3, "x", "open"⟩)] ⟨3, "x", "open"⟩ rfl).2.2.2
      (by decide)⟩⟩
